import Mathlib

/-!
# Verification of the subscription and periodic-reporting engine

Shallow embedding of the `SubscriptionService` class of the doma-telegram-bot
repository (the full version with periodic reports).  JS `Map`s are embedded
as association lists with update-in-place semantics (`upsert`, `eraseKey`,
`findVal`), JS `Set`s as duplicate-free lists with append-at-end insertion
(`sAdd`, `sDel`), matching the insertion-order behaviour of the source.
Timer handles held in `reportTimers` and `monitoringInterval` are modelled by
their observable content (which user has a live timer and at what period);
`liveGlobalTimers` is ghost instrumentation counting `setInterval` calls minus
`clearInterval` calls for the global event-monitoring timer.
-/

namespace DomaBot

/-! ## Association-list maps (JS `Map`) -/

/-- Lookup in an association list: value of the first pair with the given key
(JS `Map.get`). -/
def findVal {K V : Type} [DecidableEq K] (k : K) : List (K × V) → Option V
  | [] => none
  | (k₁, v) :: m => if k₁ = k then some v else findVal k m

/-- JS `Map.set`: replace the value at an existing key in place, otherwise
append the new pair at the end (insertion order). -/
def upsert {K V : Type} [DecidableEq K] (k : K) (v : V) : List (K × V) → List (K × V)
  | [] => [(k, v)]
  | (k₁, v₁) :: m => if k₁ = k then (k, v) :: m else (k₁, v₁) :: upsert k v m

/-- JS `Map.delete`: remove the first pair with the given key. -/
def eraseKey {K V : Type} [DecidableEq K] (k : K) : List (K × V) → List (K × V)
  | [] => []
  | (k₁, v₁) :: m => if k₁ = k then m else (k₁, v₁) :: eraseKey k m

/-- The keys of an association list. -/
def keys {K V : Type} (m : List (K × V)) : List K := m.map Prod.fst

/-! ## Duplicate-free lists (JS `Set`) -/

/-- JS `Set.add`: append at the end unless already present. -/
def sAdd {A : Type} [DecidableEq A] (a : A) (s : List A) : List A :=
  if a ∈ s then s else s ++ [a]

/-- JS `Set.delete`: remove the first occurrence. -/
def sDel {A : Type} [DecidableEq A] (a : A) : List A → List A
  | [] => []
  | b :: s => if b = a then s else b :: sDel a s

/-! ### Lemmas about the map and set helpers -/

theorem keys_cons {K V : Type} (k : K) (v : V) (m : List (K × V)) :
    keys ((k, v) :: m) = k :: keys m := rfl

theorem findVal_upsert_self {K V : Type} [DecidableEq K] (k : K) (v : V) (m : List (K × V)) :
    findVal k (upsert k v m) = some v := by
  induction m with
  | nil => simp [upsert, findVal]
  | cons p m ih =>
    obtain ⟨k₁, v₁⟩ := p
    by_cases h : k₁ = k <;> simp [upsert, findVal, h, ih]

theorem findVal_upsert_ne {K V : Type} [DecidableEq K] {k k₂ : K} (v : V) (m : List (K × V))
    (h : k₂ ≠ k) : findVal k₂ (upsert k v m) = findVal k₂ m := by
  have h' : ¬(k = k₂) := fun hk => h hk.symm
  induction m with
  | nil => simp [upsert, findVal, h']
  | cons p m ih =>
    obtain ⟨k₁, v₁⟩ := p
    by_cases h₁ : k₁ = k
    · subst h₁
      simp [upsert, findVal, h']
    · simp [upsert, findVal, h₁, ih]

theorem upsert_of_findVal_none {K V : Type} [DecidableEq K] {k : K} (v : V) {m : List (K × V)}
    (h : findVal k m = none) : upsert k v m = m ++ [(k, v)] := by
  induction m with
  | nil => simp [upsert]
  | cons p m ih =>
    obtain ⟨k₁, v₁⟩ := p
    by_cases h₁ : k₁ = k
    · simp [findVal, h₁] at h
    · simp [findVal, h₁] at h
      simp [upsert, h₁, ih h]

theorem length_upsert_of_none {K V : Type} [DecidableEq K] {k : K} (v : V) {m : List (K × V)}
    (h : findVal k m = none) : (upsert k v m).length = m.length + 1 := by
  rw [upsert_of_findVal_none v h]
  simp

theorem length_upsert_of_some {K V : Type} [DecidableEq K] {k : K} {v₀ : V} (v : V)
    {m : List (K × V)} (h : findVal k m = some v₀) : (upsert k v m).length = m.length := by
  induction m with
  | nil => simp [findVal] at h
  | cons p m ih =>
    obtain ⟨k₁, v₁⟩ := p
    by_cases h₁ : k₁ = k
    · simp [upsert, h₁]
    · simp [findVal, h₁] at h
      simp [upsert, h₁, ih h]

theorem upsert_upsert {K V : Type} [DecidableEq K] (k : K) (v₁ v₂ : V) (m : List (K × V)) :
    upsert k v₂ (upsert k v₁ m) = upsert k v₂ m := by
  induction m with
  | nil => simp [upsert]
  | cons p m ih =>
    obtain ⟨k₀, v₀⟩ := p
    by_cases h : k₀ = k <;> simp [upsert, h, ih]

theorem upsert_findVal_self {K V : Type} [DecidableEq K] {k : K} {v : V} {m : List (K × V)}
    (h : findVal k m = some v) : upsert k v m = m := by
  induction m with
  | nil => simp [findVal] at h
  | cons p m ih =>
    obtain ⟨k₁, v₁⟩ := p
    by_cases h₁ : k₁ = k
    · simp [findVal, h₁] at h
      simp [upsert, h₁, h]
    · simp [findVal, h₁] at h
      simp [upsert, h₁, ih h]

theorem mem_of_findVal {K V : Type} [DecidableEq K] {k : K} {v : V} {m : List (K × V)}
    (h : findVal k m = some v) : (k, v) ∈ m := by
  induction m with
  | nil => simp [findVal] at h
  | cons p m ih =>
    obtain ⟨k₁, v₁⟩ := p
    by_cases h₁ : k₁ = k
    · simp [findVal, h₁] at h
      simp [h₁, h]
    · simp [findVal, h₁] at h
      simp [ih h]

theorem findVal_none_iff {K V : Type} [DecidableEq K] (k : K) (m : List (K × V)) :
    findVal k m = none ↔ k ∉ keys m := by
  induction m with
  | nil => simp [findVal, keys]
  | cons p m ih =>
    obtain ⟨k₁, v₁⟩ := p
    rw [keys_cons]
    by_cases h₁ : k₁ = k
    · subst h₁
      simp [findVal]
    · have h' : ¬(k = k₁) := fun hk => h₁ hk.symm
      simp [findVal, h₁, h', ih]

theorem findVal_eraseKey_ne {K V : Type} [DecidableEq K] {k k₂ : K} (m : List (K × V))
    (h : k₂ ≠ k) : findVal k₂ (eraseKey k m) = findVal k₂ m := by
  have h' : ¬(k = k₂) := fun hk => h hk.symm
  induction m with
  | nil => simp [eraseKey]
  | cons p m ih =>
    obtain ⟨k₁, v₁⟩ := p
    by_cases h₁ : k₁ = k
    · subst h₁
      simp [eraseKey, findVal, h']
    · simp [eraseKey, findVal, h₁, ih]

theorem eraseKey_sublist {K V : Type} [DecidableEq K] (k : K) (m : List (K × V)) :
    (eraseKey k m).Sublist m := by
  induction m with
  | nil => simp [eraseKey]
  | cons p m ih =>
    obtain ⟨k₁, v₁⟩ := p
    by_cases h₁ : k₁ = k
    · simp [eraseKey, h₁]
    · simpa [eraseKey, h₁] using ih

theorem findVal_eraseKey_self {K V : Type} [DecidableEq K] {k : K} {m : List (K × V)}
    (hnd : (keys m).Nodup) : findVal k (eraseKey k m) = none := by
  induction m with
  | nil => rfl
  | cons p m ih =>
    obtain ⟨k₁, v₁⟩ := p
    rw [keys_cons, List.nodup_cons] at hnd
    by_cases h₁ : k₁ = k
    · subst h₁
      rw [eraseKey, if_pos rfl, findVal_none_iff]
      exact hnd.1
    · simp [eraseKey, findVal, h₁]
      exact ih hnd.2

theorem eraseKey_of_none {K V : Type} [DecidableEq K] {k : K} {m : List (K × V)}
    (h : findVal k m = none) : eraseKey k m = m := by
  induction m with
  | nil => simp [eraseKey]
  | cons p m ih =>
    obtain ⟨k₁, v₁⟩ := p
    by_cases h₁ : k₁ = k
    · simp [findVal, h₁] at h
    · simp [findVal, h₁] at h
      simp [eraseKey, h₁, ih h]

theorem eraseKey_append_of_none {K V : Type} [DecidableEq K] {k : K} (v : V) {m : List (K × V)}
    (h : findVal k m = none) : eraseKey k (m ++ [(k, v)]) = m := by
  induction m with
  | nil => simp [eraseKey]
  | cons p m ih =>
    obtain ⟨k₁, v₁⟩ := p
    by_cases h₁ : k₁ = k
    · simp [findVal, h₁] at h
    · simp [findVal, h₁] at h
      simp [eraseKey, h₁, ih h]

theorem length_eraseKey_of_some {K V : Type} [DecidableEq K] {k : K} {v : V} {m : List (K × V)}
    (h : findVal k m = some v) : (eraseKey k m).length + 1 = m.length := by
  induction m with
  | nil => simp [findVal] at h
  | cons p m ih =>
    obtain ⟨k₁, v₁⟩ := p
    by_cases h₁ : k₁ = k
    · simp [eraseKey, h₁]
    · simp [findVal, h₁] at h
      simp [eraseKey, h₁, ih h]

theorem keys_upsert_of_some {K V : Type} [DecidableEq K] {k : K} {v₀ : V} (v : V)
    {m : List (K × V)} (h : findVal k m = some v₀) : keys (upsert k v m) = keys m := by
  induction m with
  | nil => simp [findVal] at h
  | cons p m ih =>
    obtain ⟨k₁, v₁⟩ := p
    by_cases h₁ : k₁ = k
    · simp [upsert, keys, h₁]
    · simp [findVal, h₁] at h
      rw [upsert, if_neg h₁, keys_cons, keys_cons, ih h]

theorem keys_upsert_of_none {K V : Type} [DecidableEq K] {k : K} (v : V)
    {m : List (K × V)} (h : findVal k m = none) : keys (upsert k v m) = keys m ++ [k] := by
  rw [upsert_of_findVal_none v h]
  simp [keys]

theorem keysNodup_upsert {K V : Type} [DecidableEq K] (k : K) (v : V) {m : List (K × V)}
    (hnd : (keys m).Nodup) : (keys (upsert k v m)).Nodup := by
  cases h : findVal k m with
  | none =>
    rw [keys_upsert_of_none v h]
    have hk : k ∉ keys m := (findVal_none_iff k m).mp h
    simp [List.nodup_append, hnd, hk]
  | some v₀ => rw [keys_upsert_of_some v h]; exact hnd

theorem keysNodup_eraseKey {K V : Type} [DecidableEq K] (k : K) {m : List (K × V)}
    (hnd : (keys m).Nodup) : (keys (eraseKey k m)).Nodup :=
  ((eraseKey_sublist k m).map Prod.fst).nodup hnd

theorem mem_upsert {K V : Type} [DecidableEq K] {k : K} {v : V} {m : List (K × V)} {p : K × V}
    (h : p ∈ upsert k v m) : p = (k, v) ∨ p ∈ m := by
  induction m with
  | nil => simpa [upsert] using h
  | cons q m ih =>
    obtain ⟨k₁, v₁⟩ := q
    by_cases h₁ : k₁ = k
    · rw [upsert, if_pos h₁] at h
      rcases List.mem_cons.mp h with h | h
      · exact Or.inl h
      · exact Or.inr (List.mem_cons_of_mem _ h)
    · rw [upsert, if_neg h₁] at h
      rcases List.mem_cons.mp h with h | h
      · exact Or.inr (by simp [h])
      · rcases ih h with h | h
        · exact Or.inl h
        · exact Or.inr (List.mem_cons_of_mem _ h)

theorem mem_sAdd {A : Type} [DecidableEq A] (a b : A) (s : List A) :
    b ∈ sAdd a s ↔ b = a ∨ b ∈ s := by
  unfold sAdd
  by_cases h : a ∈ s
  · simp [h]
    intro hb
    subst hb
    exact h
  · simp [h, or_comm]

theorem mem_sAdd_self {A : Type} [DecidableEq A] (a : A) (s : List A) : a ∈ sAdd a s := by
  simp [mem_sAdd]

theorem sAdd_ne_nil {A : Type} [DecidableEq A] (a : A) (s : List A) : sAdd a s ≠ [] := by
  intro h
  have := mem_sAdd_self a s
  simp [h] at this

theorem sAdd_of_mem {A : Type} [DecidableEq A] {a : A} {s : List A} (h : a ∈ s) :
    sAdd a s = s := by
  simp [sAdd, h]

theorem sAdd_of_not_mem {A : Type} [DecidableEq A] {a : A} {s : List A} (h : a ∉ s) :
    sAdd a s = s ++ [a] := by
  simp [sAdd, h]

theorem nodup_sAdd {A : Type} [DecidableEq A] (a : A) {s : List A} (h : s.Nodup) :
    (sAdd a s).Nodup := by
  unfold sAdd
  by_cases ha : a ∈ s
  · simp [ha, h]
  · simp [ha, List.nodup_append, h]

theorem mem_sDel_ne {A : Type} [DecidableEq A] {a b : A} (s : List A) (h : b ≠ a) :
    b ∈ sDel a s ↔ b ∈ s := by
  induction s with
  | nil => simp [sDel]
  | cons c s ih =>
    by_cases hc : c = a
    · subst hc
      simp [sDel, h]
    · simp [sDel, hc, ih]

theorem not_mem_sDel_self {A : Type} [DecidableEq A] {a : A} {s : List A} (h : s.Nodup) :
    a ∉ sDel a s := by
  induction s with
  | nil => simp [sDel]
  | cons c s ih =>
    rw [List.nodup_cons] at h
    by_cases hc : c = a
    · subst hc
      simpa [sDel] using h.1
    · have hc' : ¬(a = c) := fun hb => hc hb.symm
      simp [sDel, hc, hc']
      exact ih h.2

theorem sDel_append_self {A : Type} [DecidableEq A] {a : A} {s : List A} (h : a ∉ s) :
    sDel a (s ++ [a]) = s := by
  induction s with
  | nil => simp [sDel]
  | cons c s ih =>
    rw [List.mem_cons] at h
    push_neg at h
    have hc : ¬(c = a) := fun hb => h.1 hb.symm
    simp [sDel, hc, ih h.2]

theorem sDel_sAdd {A : Type} [DecidableEq A] {a : A} {s : List A} (h : a ∉ s) :
    sDel a (sAdd a s) = s := by
  rw [sAdd_of_not_mem h]
  exact sDel_append_self h

theorem nodup_sDel {A : Type} [DecidableEq A] (a : A) {s : List A} (h : s.Nodup) :
    (sDel a s).Nodup := by
  induction s with
  | nil => simp [sDel]
  | cons c s ih =>
    rw [List.nodup_cons] at h
    by_cases hc : c = a
    · simp [sDel, hc, h.2]
    · simp [sDel, hc]
      constructor
      · intro hcs
        exact h.1 ((mem_sDel_ne s hc).mp hcs)
      · exact ih h.2

/-! ## Data model of `SubscriptionService`

Source: `SubscriptionService` (the version with periodic reports).
Field `scoreThreshold` is a JS number that the engine only stores; it is
embedded as `Int`.  `reportInterval` is the interval name string. -/

/-- The per-user alert preference object stored in `subscriptions`. -/
structure Preferences where
  priceAlerts : Bool
  expirationAlerts : Bool
  saleAlerts : Bool
  transferAlerts : Bool
  scoreThreshold : Int
  reportInterval : String
  periodicReports : Bool
deriving DecidableEq, Repr

/-- A JS partial preference object, as passed to `subscribe` and
`updatePreferences`; `none` means the key is absent from the object. -/
structure PrefPatch where
  priceAlerts : Option Bool := none
  expirationAlerts : Option Bool := none
  saleAlerts : Option Bool := none
  transferAlerts : Option Bool := none
  scoreThreshold : Option Int := none
  reportInterval : Option String := none
  periodicReports : Option Bool := none
deriving DecidableEq, Repr

/-- JS shallow merge `{ ...old, ...patch }`: keys present in the patch
override, absent keys keep the old value. -/
def mergePrefs (old : Preferences) (patch : PrefPatch) : Preferences where
  priceAlerts := patch.priceAlerts.getD old.priceAlerts
  expirationAlerts := patch.expirationAlerts.getD old.expirationAlerts
  saleAlerts := patch.saleAlerts.getD old.saleAlerts
  transferAlerts := patch.transferAlerts.getD old.transferAlerts
  scoreThreshold := patch.scoreThreshold.getD old.scoreThreshold
  reportInterval := patch.reportInterval.getD old.reportInterval
  periodicReports := patch.periodicReports.getD old.periodicReports

/-- The default preference object installed by `subscribe` for a new user. -/
def defaultPreferences : Preferences where
  priceAlerts := true
  expirationAlerts := true
  saleAlerts := true
  transferAlerts := true
  scoreThreshold := 80
  reportInterval := "30min"
  periodicReports := true

/-- A `subscriptions` map entry: `{ domains: Set, preferences: Object }`. -/
structure UserSub where
  domains : List String
  preferences : Preferences
deriving DecidableEq, Repr

/-- Result object `{ success, message }` returned by the mutating operations. -/
structure Result where
  success : Bool
  message : String
deriving DecidableEq, Repr

/-- The mutable instance state of `SubscriptionService`.  `monitoringInterval`
holds `some ()` while the global `setInterval` handle is stored (it is set to
`null` by `stopEventMonitoring`).  `reportTimers` maps a user id to the
millisecond period of that user's live `setInterval` timer.
`liveGlobalTimers` is ghost instrumentation: the number of global
event-monitoring timers currently live (created and not yet cleared). -/
structure SubscriptionService where
  subscriptions : List (Nat × UserSub)
  domainWatchers : List (String × List Nat)
  isMonitoring : Bool
  monitoringInterval : Option Unit
  reportTimers : List (Nat × Nat)
  liveGlobalTimers : Nat
deriving DecidableEq, Repr

/-- The constructor state: empty maps, monitoring off. -/
def initService : SubscriptionService where
  subscriptions := []
  domainWatchers := []
  isMonitoring := false
  monitoringInterval := none
  reportTimers := []
  liveGlobalTimers := 0

/-- `this.eventCheckInterval = 30000` (milliseconds between event ticks). -/
def eventCheckInterval : Nat := 30000

/-- What a JS bracket lookup `this.reportIntervals[interval]` can produce, as
far as the engine observes it: an own numeric property, a truthy function or
object inherited from `Object.prototype` (the object literal has the default
prototype), or `undefined`. -/
inductive JsLookup where
  | num (ms : Nat)
  | inherited
  | undefinedVal
deriving DecidableEq, Repr

/-- The property names a bracket lookup finds on `Object.prototype` when they
are not own keys; every one of them holds a function (or, for the `__proto__`
accessor, an object), hence a truthy value. -/
def objectPrototypeProps : List String :=
  ["constructor", "hasOwnProperty", "isPrototypeOf", "propertyIsEnumerable",
    "toLocaleString", "toString", "valueOf", "__defineGetter__",
    "__defineSetter__", "__lookupGetter__", "__lookupSetter__", "__proto__"]

/-- `this.reportIntervals[interval]`: the object literal holds the four report
cadences in milliseconds as own keys, but the bracket lookup consults the
prototype chain, so names of `Object.prototype` properties yield an inherited
truthy value rather than `undefined`. -/
def reportIntervals (interval : String) : JsLookup :=
  if interval = "10min" then .num (10 * 60 * 1000)
  else if interval = "30min" then .num (30 * 60 * 1000)
  else if interval = "12h" then .num (12 * 60 * 60 * 1000)
  else if interval = "1day" then .num (24 * 60 * 60 * 1000)
  else if interval ∈ objectPrototypeProps then .inherited
  else .undefinedVal

/-- JS truthiness of the looked-up value, as tested by
`!this.reportIntervals[interval]`: a number is truthy unless it is zero, an
inherited function or object is truthy, `undefined` is falsy. -/
def JsLookup.truthy : JsLookup → Bool
  | .num ms => ms != 0
  | .inherited => true
  | .undefinedVal => false

/-- The delay `setInterval` ends up scheduled with: an own numeric property is
used as is; a function or object coerces to NaN and `undefined` stays
`undefined`, both of which the HTML timer steps turn into a zero delay. -/
def JsLookup.toDelay : JsLookup → Nat
  | .num ms => ms
  | .inherited => 0
  | .undefinedVal => 0

/-! ## Operations -/

/-- `startEventMonitoring()`: no-op while already monitoring, otherwise set the
flag and install the recurring global timer. -/
def startEventMonitoring (s : SubscriptionService) : SubscriptionService :=
  if s.isMonitoring then s
  else
    { s with
      isMonitoring := true
      monitoringInterval := some ()
      liveGlobalTimers := s.liveGlobalTimers + 1 }

/-- `stopEventMonitoring()`: clear the global timer when one is held, null the
handle, and drop the flag. -/
def stopEventMonitoring (s : SubscriptionService) : SubscriptionService :=
  match s.monitoringInterval with
  | some _ =>
    { s with
      isMonitoring := false
      monitoringInterval := none
      liveGlobalTimers := s.liveGlobalTimers - 1 }
  | none => { s with isMonitoring := false }

/-- `stopPeriodicReports(userId)`: clear and delete the user's report timer if
one exists. -/
def stopPeriodicReports (userId : Nat) (s : SubscriptionService) : SubscriptionService :=
  if (findVal userId s.reportTimers).isSome then
    { s with reportTimers := eraseKey userId s.reportTimers }
  else s

/-- The millisecond period `startPeriodicReports` arms a timer with, given the
user's preferences: `reportIntervals[preferences.reportInterval || "30min"]`.
The empty string is the only falsy `String` value (JS `||`); the looked-up
value is coerced to a delay by `setInterval` (`JsLookup.toDelay`). -/
def timerMs (p : Preferences) : Nat :=
  (reportIntervals (if p.reportInterval = "" then "30min" else p.reportInterval)).toDelay

/-- `startPeriodicReports(userId)`: cancel any existing timer, then, if the
user has a record and `periodicReports` is enabled, arm a recurring timer at
the period given by the stored interval name. -/
def startPeriodicReports (userId : Nat) (s : SubscriptionService) : SubscriptionService :=
  let s₁ := stopPeriodicReports userId s
  match findVal userId s₁.subscriptions with
  | none => s₁
  | some userSub =>
    if userSub.preferences.periodicReports = false then s₁
    else { s₁ with reportTimers := upsert userId (timerMs userSub.preferences) s₁.reportTimers }

/-- `subscribe(userId, domain, preferences = {})`. -/
def subscribe (userId : Nat) (domain : String) (preferences : PrefPatch)
    (s : SubscriptionService) : SubscriptionService × Result :=
  let subs₀ :=
    if (findVal userId s.subscriptions).isSome then s.subscriptions
    else upsert userId ⟨[], defaultPreferences⟩ s.subscriptions
  let userSub := (findVal userId subs₀).getD ⟨[], defaultPreferences⟩
  let userSub₁ : UserSub :=
    { domains := sAdd domain userSub.domains
      preferences := mergePrefs userSub.preferences preferences }
  let subs₁ := upsert userId userSub₁ subs₀
  let watcherSet := (findVal domain s.domainWatchers).getD []
  let watchers₁ := upsert domain (sAdd userId watcherSet) s.domainWatchers
  let s₁ := { s with subscriptions := subs₁, domainWatchers := watchers₁ }
  let s₂ := if s₁.isMonitoring = false then startEventMonitoring s₁ else s₁
  let s₃ := startPeriodicReports userId s₂
  (s₃, ⟨true, "Successfully subscribed to " ++ domain⟩)

/-- `unsubscribe(userId, domain)`. -/
def unsubscribe (userId : Nat) (domain : String)
    (s : SubscriptionService) : SubscriptionService × Result :=
  match findVal userId s.subscriptions with
  | none => (s, ⟨false, "No active subscriptions found"⟩)
  | some userSub =>
    if domain ∈ userSub.domains then
      let userSub₁ : UserSub := { userSub with domains := sDel domain userSub.domains }
      let subs₁ := upsert userId userSub₁ s.subscriptions
      let watchers₁ :=
        match findVal domain s.domainWatchers with
        | none => s.domainWatchers
        | some ws =>
          let ws₁ := sDel userId ws
          if ws₁.length = 0 then eraseKey domain s.domainWatchers
          else upsert domain ws₁ s.domainWatchers
      ({ s with subscriptions := subs₁, domainWatchers := watchers₁ },
        ⟨true, "Successfully unsubscribed from " ++ domain⟩)
    else (s, ⟨false, "Not subscribed to " ++ domain⟩)

/-- The snapshot object returned by `getUserSubscriptions`. -/
structure UserSnapshot where
  domains : List String
  preferences : Preferences
deriving DecidableEq, Repr

/-- `getUserSubscriptions(userId)`: a read-only accessor (the source method
never writes any instance field, so it is embedded as a pure function of the
state).  For an unknown user it returns the literal fallback object written in
the source: empty domain list, all four alert flags `false`,
`scoreThreshold: 80`, `reportInterval: "30min"`, `periodicReports: false`. -/
def getUserSubscriptions (userId : Nat) (s : SubscriptionService) : UserSnapshot :=
  match findVal userId s.subscriptions with
  | none => ⟨[], ⟨false, false, false, false, 80, "30min", false⟩⟩
  | some userSub => ⟨userSub.domains, userSub.preferences⟩

/-- `updatePreferences(userId, preferences)`: shallow-merge into the stored
preference object; fails when the user has no record. -/
def updatePreferences (userId : Nat) (preferences : PrefPatch)
    (s : SubscriptionService) : SubscriptionService × Result :=
  match findVal userId s.subscriptions with
  | none => (s, ⟨false, "No active subscriptions found"⟩)
  | some userSub =>
    let userSub₁ : UserSub :=
      { userSub with preferences := mergePrefs userSub.preferences preferences }
    ({ s with subscriptions := upsert userId userSub₁ s.subscriptions },
      ⟨true, "Preferences updated successfully"⟩)

/-- `setReportInterval(userId, interval)`: the interval string is validated
against `reportIntervals` before the user record is checked (a truthiness
test on the bracket lookup, which also accepts inherited `Object.prototype`
property names); on success the interval is stored and the report timer
re-armed. -/
def setReportInterval (userId : Nat) (interval : String)
    (s : SubscriptionService) : SubscriptionService × Result :=
  if (reportIntervals interval).truthy = false then
    (s, ⟨false, "Invalid report interval. Use: 10min, 30min, 12h, 1day"⟩)
  else
    match findVal userId s.subscriptions with
    | none => (s, ⟨false, "No active subscriptions found"⟩)
    | some userSub =>
      let userSub₁ : UserSub :=
        { userSub with preferences := { userSub.preferences with reportInterval := interval } }
      let s₁ := { s with subscriptions := upsert userId userSub₁ s.subscriptions }
      let s₂ := startPeriodicReports userId s₁
      (s₂, ⟨true, "Report interval set to " ++ interval⟩)

/-- `togglePeriodicReports(userId, enabled)`: store the flag, then arm or
cancel the report timer accordingly; fails when the user has no record. -/
def togglePeriodicReports (userId : Nat) (enabled : Bool)
    (s : SubscriptionService) : SubscriptionService × Result :=
  match findVal userId s.subscriptions with
  | none => (s, ⟨false, "No active subscriptions found"⟩)
  | some userSub =>
    let userSub₁ : UserSub :=
      { userSub with preferences := { userSub.preferences with periodicReports := enabled } }
    let s₁ := { s with subscriptions := upsert userId userSub₁ s.subscriptions }
    let s₂ := if enabled then startPeriodicReports userId s₁ else stopPeriodicReports userId s₁
    (s₂, ⟨true, "Periodic reports " ++ (if enabled then "enabled" else "disabled")⟩)

/-- The object returned by `getStats()` (a pure aggregate read). -/
structure Stats where
  totalUsers : Nat
  totalDomains : Nat
  isMonitoring : Bool
  activeReportTimers : Nat
deriving DecidableEq, Repr

/-- `getStats()`. -/
def getStats (s : SubscriptionService) : Stats where
  totalUsers := s.subscriptions.length
  totalDomains := s.domainWatchers.length
  isMonitoring := s.isMonitoring
  activeReportTimers := s.reportTimers.length

/-! ## Event detection (`detectNewEvents` and the `isNew*` checks) -/

/-- A domain activity item; the source reads its `type` property (renamed
`activityType` because `type` is a Lean keyword). -/
structure Activity where
  activityType : String
deriving DecidableEq, Repr

/-- A listing item; the source interpolates `price` and `priceInUSD` into the
alert message, so they are embedded as their rendered string forms. -/
structure Listing where
  price : String
  priceInUSD : String
deriving DecidableEq, Repr

/-- An offer item, read like `Listing`. -/
structure Offer where
  price : String
  priceInUSD : String
deriving DecidableEq, Repr

/-- The `data` payload attached to a detected event. -/
inductive EventData where
  | activity (a : Activity)
  | listing (l : Listing)
  | offer (o : Offer)
deriving DecidableEq, Repr

/-- An event object pushed by `detectNewEvents` (field `type` renamed
`eventType`). -/
structure DomainEvent where
  eventType : String
  message : String
  data : EventData
deriving DecidableEq, Repr

/-- `isNewActivity(domain, activity)`: always true (documented
simplification — no dedup against stored timestamps). -/
def isNewActivity (_domain : String) (_activity : Activity) : Bool := true

/-- `isNewListing(domain, listing)`: always true. -/
def isNewListing (_domain : String) (_listing : Listing) : Bool := true

/-- `isNewOffer(domain, offer)`: always true. -/
def isNewOffer (_domain : String) (_offer : Offer) : Bool := true

/-- `detectNewEvents(domain, domainData, activities, listings, offers)`:
examine the head of each fetched list and push one event per non-empty
category whose head passes the corresponding `isNew*` check.  `domainData` is
accepted and ignored exactly as in the source. -/
def detectNewEvents (domain : String) (_domainData : Option Unit)
    (activities : List Activity) (listings : List Listing) (offers : List Offer) :
    List DomainEvent :=
  let events : List DomainEvent := []
  let events :=
    match activities with
    | [] => events
    | latestActivity :: _ =>
      if isNewActivity domain latestActivity then
        events ++ [⟨"ACTIVITY", "New activity detected: " ++ latestActivity.activityType,
          EventData.activity latestActivity⟩]
      else events
  let events :=
    match listings with
    | [] => events
    | latestListing :: _ =>
      if isNewListing domain latestListing then
        events ++ [⟨"LISTING",
          "New listing: " ++ latestListing.price ++ " ETH ($" ++ latestListing.priceInUSD ++ ")",
          EventData.listing latestListing⟩]
      else events
  let events :=
    match offers with
    | [] => events
    | latestOffer :: _ =>
      if isNewOffer domain latestOffer then
        events ++ [⟨"OFFER",
          "New offer: " ++ latestOffer.price ++ " ETH ($" ++ latestOffer.priceInUSD ++ ")",
          EventData.offer latestOffer⟩]
      else events
  events

/-! ## Derived accessors and reachability -/

/-- The watcher set of a domain (empty when the index has no entry). -/
def watcherList (s : SubscriptionService) (d : String) : List Nat :=
  (findVal d s.domainWatchers).getD []

/-- The subscription domain set of a user (empty when the user has no
record). -/
def userDomains (s : SubscriptionService) (u : Nat) : List String :=
  ((findVal u s.subscriptions).map UserSub.domains).getD []

/-- The record `subscribe` operates on: the existing one, or the freshly
installed default record. -/
def subRecord (s : SubscriptionService) (u : Nat) : UserSub :=
  (findVal u s.subscriptions).getD ⟨[], defaultPreferences⟩

/-- States reachable from the constructor state through the public API.
`getUserSubscriptions` and `getStats` are embedded as pure reads and hence
cannot change the state. -/
inductive Reachable : SubscriptionService → Prop where
  | init : Reachable initService
  | subscribe (u : Nat) (d : String) (p : PrefPatch) {s : SubscriptionService} :
      Reachable s → Reachable (subscribe u d p s).1
  | unsubscribe (u : Nat) (d : String) {s : SubscriptionService} :
      Reachable s → Reachable (unsubscribe u d s).1
  | updatePreferences (u : Nat) (p : PrefPatch) {s : SubscriptionService} :
      Reachable s → Reachable (updatePreferences u p s).1
  | setReportInterval (u : Nat) (i : String) {s : SubscriptionService} :
      Reachable s → Reachable (setReportInterval u i s).1
  | togglePeriodicReports (u : Nat) (b : Bool) {s : SubscriptionService} :
      Reachable s → Reachable (togglePeriodicReports u b s).1
  | startEventMonitoring {s : SubscriptionService} :
      Reachable s → Reachable (startEventMonitoring s)
  | stopEventMonitoring {s : SubscriptionService} :
      Reachable s → Reachable (stopEventMonitoring s)

/-- States reachable without ever calling `updatePreferences`. -/
inductive ReachableNoUpd : SubscriptionService → Prop where
  | init : ReachableNoUpd initService
  | subscribe (u : Nat) (d : String) (p : PrefPatch) {s : SubscriptionService} :
      ReachableNoUpd s → ReachableNoUpd (subscribe u d p s).1
  | unsubscribe (u : Nat) (d : String) {s : SubscriptionService} :
      ReachableNoUpd s → ReachableNoUpd (unsubscribe u d s).1
  | setReportInterval (u : Nat) (i : String) {s : SubscriptionService} :
      ReachableNoUpd s → ReachableNoUpd (setReportInterval u i s).1
  | togglePeriodicReports (u : Nat) (b : Bool) {s : SubscriptionService} :
      ReachableNoUpd s → ReachableNoUpd (togglePeriodicReports u b s).1
  | startEventMonitoring {s : SubscriptionService} :
      ReachableNoUpd s → ReachableNoUpd (startEventMonitoring s)
  | stopEventMonitoring {s : SubscriptionService} :
      ReachableNoUpd s → ReachableNoUpd (stopEventMonitoring s)

theorem reachable_of_noUpd {s : SubscriptionService} (h : ReachableNoUpd s) : Reachable s := by
  induction h with
  | init => exact Reachable.init
  | subscribe u d p _ ih => exact Reachable.subscribe u d p ih
  | unsubscribe u d _ ih => exact Reachable.unsubscribe u d ih
  | setReportInterval u i _ ih => exact Reachable.setReportInterval u i ih
  | togglePeriodicReports u b _ ih => exact Reachable.togglePeriodicReports u b ih
  | startEventMonitoring _ ih => exact Reachable.startEventMonitoring ih
  | stopEventMonitoring _ ih => exact Reachable.stopEventMonitoring ih

/-! ## Frame lemmas: which fields each helper leaves untouched -/

theorem startEventMonitoring_subscriptions (s : SubscriptionService) :
    (startEventMonitoring s).subscriptions = s.subscriptions := by
  unfold startEventMonitoring
  split <;> rfl

theorem startEventMonitoring_domainWatchers (s : SubscriptionService) :
    (startEventMonitoring s).domainWatchers = s.domainWatchers := by
  unfold startEventMonitoring
  split <;> rfl

theorem startEventMonitoring_reportTimers (s : SubscriptionService) :
    (startEventMonitoring s).reportTimers = s.reportTimers := by
  unfold startEventMonitoring
  split <;> rfl

theorem startEventMonitoring_isMonitoring (s : SubscriptionService) :
    (startEventMonitoring s).isMonitoring = true ∨
      (startEventMonitoring s) = s ∧ s.isMonitoring = true := by
  unfold startEventMonitoring
  split
  · rename_i h
    exact Or.inr ⟨rfl, h⟩
  · exact Or.inl rfl

theorem stopEventMonitoring_subscriptions (s : SubscriptionService) :
    (stopEventMonitoring s).subscriptions = s.subscriptions := by
  unfold stopEventMonitoring
  split <;> rfl

theorem stopEventMonitoring_domainWatchers (s : SubscriptionService) :
    (stopEventMonitoring s).domainWatchers = s.domainWatchers := by
  unfold stopEventMonitoring
  split <;> rfl

theorem stopEventMonitoring_reportTimers (s : SubscriptionService) :
    (stopEventMonitoring s).reportTimers = s.reportTimers := by
  unfold stopEventMonitoring
  split <;> rfl

theorem stopPeriodicReports_subscriptions (u : Nat) (s : SubscriptionService) :
    (stopPeriodicReports u s).subscriptions = s.subscriptions := by
  unfold stopPeriodicReports
  split <;> rfl

theorem stopPeriodicReports_domainWatchers (u : Nat) (s : SubscriptionService) :
    (stopPeriodicReports u s).domainWatchers = s.domainWatchers := by
  unfold stopPeriodicReports
  split <;> rfl

theorem stopPeriodicReports_isMonitoring (u : Nat) (s : SubscriptionService) :
    (stopPeriodicReports u s).isMonitoring = s.isMonitoring := by
  unfold stopPeriodicReports
  split <;> rfl

theorem stopPeriodicReports_monitoringInterval (u : Nat) (s : SubscriptionService) :
    (stopPeriodicReports u s).monitoringInterval = s.monitoringInterval := by
  unfold stopPeriodicReports
  split <;> rfl

theorem stopPeriodicReports_liveGlobalTimers (u : Nat) (s : SubscriptionService) :
    (stopPeriodicReports u s).liveGlobalTimers = s.liveGlobalTimers := by
  unfold stopPeriodicReports
  split <;> rfl

theorem startPeriodicReports_subscriptions (u : Nat) (s : SubscriptionService) :
    (startPeriodicReports u s).subscriptions = s.subscriptions := by
  unfold startPeriodicReports
  dsimp only
  split
  · exact stopPeriodicReports_subscriptions u s
  · split
    · exact stopPeriodicReports_subscriptions u s
    · exact stopPeriodicReports_subscriptions u s

theorem startPeriodicReports_domainWatchers (u : Nat) (s : SubscriptionService) :
    (startPeriodicReports u s).domainWatchers = s.domainWatchers := by
  unfold startPeriodicReports
  dsimp only
  split
  · exact stopPeriodicReports_domainWatchers u s
  · split
    · exact stopPeriodicReports_domainWatchers u s
    · exact stopPeriodicReports_domainWatchers u s

theorem startPeriodicReports_isMonitoring (u : Nat) (s : SubscriptionService) :
    (startPeriodicReports u s).isMonitoring = s.isMonitoring := by
  unfold startPeriodicReports
  dsimp only
  split
  · exact stopPeriodicReports_isMonitoring u s
  · split
    · exact stopPeriodicReports_isMonitoring u s
    · exact stopPeriodicReports_isMonitoring u s

theorem startPeriodicReports_monitoringInterval (u : Nat) (s : SubscriptionService) :
    (startPeriodicReports u s).monitoringInterval = s.monitoringInterval := by
  unfold startPeriodicReports
  dsimp only
  split
  · exact stopPeriodicReports_monitoringInterval u s
  · split
    · exact stopPeriodicReports_monitoringInterval u s
    · exact stopPeriodicReports_monitoringInterval u s

theorem startPeriodicReports_liveGlobalTimers (u : Nat) (s : SubscriptionService) :
    (startPeriodicReports u s).liveGlobalTimers = s.liveGlobalTimers := by
  unfold startPeriodicReports
  dsimp only
  split
  · exact stopPeriodicReports_liveGlobalTimers u s
  · split
    · exact stopPeriodicReports_liveGlobalTimers u s
    · exact stopPeriodicReports_liveGlobalTimers u s

theorem stopPeriodicReports_findVal_self (u : Nat) {s : SubscriptionService}
    (hnd : (keys s.reportTimers).Nodup) :
    findVal u (stopPeriodicReports u s).reportTimers = none := by
  unfold stopPeriodicReports
  split
  · exact findVal_eraseKey_self hnd
  · rename_i h
    cases hv : findVal u s.reportTimers with
    | none => rfl
    | some v => simp [hv] at h

theorem stopPeriodicReports_findVal_ne {u u' : Nat} (s : SubscriptionService) (h : u' ≠ u) :
    findVal u' (stopPeriodicReports u s).reportTimers = findVal u' s.reportTimers := by
  unfold stopPeriodicReports
  split
  · exact findVal_eraseKey_ne _ h
  · rfl

theorem stopPeriodicReports_timerKeys (u : Nat) {s : SubscriptionService}
    (hnd : (keys s.reportTimers).Nodup) :
    (keys (stopPeriodicReports u s).reportTimers).Nodup := by
  unfold stopPeriodicReports
  split
  · exact keysNodup_eraseKey _ hnd
  · exact hnd

theorem startPeriodicReports_findVal_self (u : Nat) {s : SubscriptionService}
    (hnd : (keys s.reportTimers).Nodup) :
    findVal u (startPeriodicReports u s).reportTimers =
      match findVal u s.subscriptions with
      | none => none
      | some userSub =>
        if userSub.preferences.periodicReports then some (timerMs userSub.preferences)
        else none := by
  unfold startPeriodicReports
  dsimp only
  rw [stopPeriodicReports_subscriptions]
  cases h : findVal u s.subscriptions with
  | none =>
    simp only [h]
    exact stopPeriodicReports_findVal_self u hnd
  | some userSub =>
    cases hp : userSub.preferences.periodicReports with
    | false =>
      simp only [h, hp, if_true, Bool.false_eq_true, if_false]
      exact stopPeriodicReports_findVal_self u hnd
    | true =>
      simp only [h, hp, Bool.true_eq_false, if_false, if_true]
      exact findVal_upsert_self u _ _

theorem startPeriodicReports_findVal_ne {u u' : Nat} (s : SubscriptionService) (h : u' ≠ u) :
    findVal u' (startPeriodicReports u s).reportTimers = findVal u' s.reportTimers := by
  unfold startPeriodicReports
  dsimp only
  cases hsub : findVal u (stopPeriodicReports u s).subscriptions with
  | none =>
    simp only [hsub]
    exact stopPeriodicReports_findVal_ne s h
  | some userSub =>
    cases hp : userSub.preferences.periodicReports with
    | false =>
      simp only [hsub, hp, Bool.false_eq_true, if_true, if_false]
      exact stopPeriodicReports_findVal_ne s h
    | true =>
      simp only [hsub, hp, Bool.true_eq_false, if_false, if_true]
      rw [findVal_upsert_ne _ _ h]
      exact stopPeriodicReports_findVal_ne s h

theorem startPeriodicReports_timerKeys (u : Nat) {s : SubscriptionService}
    (hnd : (keys s.reportTimers).Nodup) :
    (keys (startPeriodicReports u s).reportTimers).Nodup := by
  unfold startPeriodicReports
  dsimp only
  split
  · exact stopPeriodicReports_timerKeys u hnd
  · split
    · exact stopPeriodicReports_timerKeys u hnd
    · exact keysNodup_upsert _ _ (stopPeriodicReports_timerKeys u hnd)

/-- Structural description of `subscribe`: it is `startPeriodicReports` applied
to the state with the updated registry, index and monitoring fields. -/
theorem subscribe_unfold (u : Nat) (d : String) (p : PrefPatch) (s : SubscriptionService) :
    (subscribe u d p s).1 = startPeriodicReports u
      { subscriptions :=
          upsert u ⟨sAdd d (subRecord s u).domains, mergePrefs (subRecord s u).preferences p⟩
            s.subscriptions
        domainWatchers := upsert d (sAdd u (watcherList s d)) s.domainWatchers
        isMonitoring := true
        monitoringInterval := if s.isMonitoring then s.monitoringInterval else some ()
        reportTimers := s.reportTimers
        liveGlobalTimers :=
          if s.isMonitoring then s.liveGlobalTimers else s.liveGlobalTimers + 1 } := by
  unfold subscribe
  dsimp only
  have hsubs :
      (if (findVal u s.subscriptions).isSome = true then s.subscriptions
        else upsert u ⟨[], defaultPreferences⟩ s.subscriptions) = s.subscriptions ∨
      (findVal u s.subscriptions = none ∧
        (if (findVal u s.subscriptions).isSome = true then s.subscriptions
          else upsert u ⟨[], defaultPreferences⟩ s.subscriptions) =
          upsert u ⟨[], defaultPreferences⟩ s.subscriptions) := by
    cases h : findVal u s.subscriptions with
    | none => exact Or.inr ⟨rfl, by simp [h]⟩
    | some sub => exact Or.inl (by simp [h])
  by_cases hm : s.isMonitoring = false
  · rw [if_pos hm]
    unfold startEventMonitoring
    dsimp only
    rw [if_neg (by simp [hm])]
    congr 1
    cases h : findVal u s.subscriptions with
    | none =>
      simp [h, findVal_upsert_self, upsert_upsert, hm, subRecord, watcherList]
    | some sub =>
      simp [h, hm, subRecord, watcherList]
  · rw [if_neg hm]
    have hm' : s.isMonitoring = true := by
      cases hv : s.isMonitoring
      · exact absurd hv hm
      · rfl
    congr 1
    cases h : findVal u s.subscriptions with
    | none =>
      simp [h, findVal_upsert_self, upsert_upsert, hm', subRecord, watcherList]
    | some sub =>
      simp [h, hm', subRecord, watcherList]

theorem subscribe_subscriptions (u : Nat) (d : String) (p : PrefPatch) (s : SubscriptionService) :
    (subscribe u d p s).1.subscriptions =
      upsert u ⟨sAdd d (subRecord s u).domains, mergePrefs (subRecord s u).preferences p⟩
        s.subscriptions := by
  rw [subscribe_unfold, startPeriodicReports_subscriptions]

theorem subscribe_domainWatchers (u : Nat) (d : String) (p : PrefPatch) (s : SubscriptionService) :
    (subscribe u d p s).1.domainWatchers =
      upsert d (sAdd u (watcherList s d)) s.domainWatchers := by
  rw [subscribe_unfold, startPeriodicReports_domainWatchers]

theorem subscribe_isMonitoring (u : Nat) (d : String) (p : PrefPatch) (s : SubscriptionService) :
    (subscribe u d p s).1.isMonitoring = true := by
  rw [subscribe_unfold, startPeriodicReports_isMonitoring]

theorem subscribe_monitoringInterval (u : Nat) (d : String) (p : PrefPatch)
    (s : SubscriptionService) :
    (subscribe u d p s).1.monitoringInterval =
      if s.isMonitoring then s.monitoringInterval else some () := by
  rw [subscribe_unfold, startPeriodicReports_monitoringInterval]

theorem subscribe_liveGlobalTimers (u : Nat) (d : String) (p : PrefPatch)
    (s : SubscriptionService) :
    (subscribe u d p s).1.liveGlobalTimers =
      if s.isMonitoring then s.liveGlobalTimers else s.liveGlobalTimers + 1 := by
  rw [subscribe_unfold, startPeriodicReports_liveGlobalTimers]

theorem subscribe_result (u : Nat) (d : String) (p : PrefPatch) (s : SubscriptionService) :
    (subscribe u d p s).2 = ⟨true, "Successfully subscribed to " ++ d⟩ := rfl

theorem subscribe_watcherList (u : Nat) (d : String) (p : PrefPatch) (s : SubscriptionService)
    (d' : String) :
    watcherList (subscribe u d p s).1 d' =
      if d' = d then sAdd u (watcherList s d) else watcherList s d' := by
  unfold watcherList
  rw [subscribe_domainWatchers]
  by_cases h : d' = d
  · subst h
    simp [findVal_upsert_self, watcherList]
  · simp [h, findVal_upsert_ne _ _ h]

theorem userDomains_eq_subRecord (s : SubscriptionService) (u : Nat) :
    userDomains s u = (subRecord s u).domains := by
  unfold userDomains subRecord
  cases h : findVal u s.subscriptions <;> simp [defaultPreferences]

theorem subscribe_userDomains (u : Nat) (d : String) (p : PrefPatch) (s : SubscriptionService)
    (u' : Nat) :
    userDomains (subscribe u d p s).1 u' =
      if u' = u then sAdd d (subRecord s u).domains else userDomains s u' := by
  unfold userDomains
  rw [subscribe_subscriptions]
  by_cases h : u' = u
  · subst h
    simp [findVal_upsert_self]
  · simp [h, findVal_upsert_ne _ _ h]

/-! ## The well-formedness invariant (claims C1, C10) -/

/-- The structural invariant of the engine: duplicate-free map keys and sets,
no dangling empty watcher entries, registry/index synchronization, and
consistency of the monitoring flag, its timer handle and the ghost count of
live global timers. -/
structure WellFormed (s : SubscriptionService) : Prop where
  subsKeysNodup : (keys s.subscriptions).Nodup
  watchKeysNodup : (keys s.domainWatchers).Nodup
  timerKeysNodup : (keys s.reportTimers).Nodup
  domainsNodup : ∀ u sub, (u, sub) ∈ s.subscriptions → sub.domains.Nodup
  watchersNodup : ∀ d ws, (d, ws) ∈ s.domainWatchers → ws.Nodup
  watchersNonempty : ∀ d ws, findVal d s.domainWatchers = some ws → ws ≠ []
  sync : ∀ u d, u ∈ watcherList s d ↔ d ∈ userDomains s u
  monSync : s.isMonitoring = s.monitoringInterval.isSome
  monCount : s.liveGlobalTimers = if s.isMonitoring then 1 else 0

theorem subRecord_domains_nodup {s : SubscriptionService} (hw : WellFormed s) (u : Nat) :
    (subRecord s u).domains.Nodup := by
  unfold subRecord
  cases h : findVal u s.subscriptions with
  | none => simp
  | some sub => exact hw.domainsNodup u sub (mem_of_findVal h)

theorem watcherList_nodup {s : SubscriptionService} (hw : WellFormed s) (d : String) :
    (watcherList s d).Nodup := by
  unfold watcherList
  cases h : findVal d s.domainWatchers with
  | none => simp
  | some ws => exact hw.watchersNodup d ws (mem_of_findVal h)

theorem wf_init : WellFormed initService := by
  constructor <;>
    simp [initService, keys, watcherList, userDomains, findVal]

theorem wf_subscribe {s : SubscriptionService} (hw : WellFormed s) (u : Nat) (d : String)
    (p : PrefPatch) : WellFormed (subscribe u d p s).1 := by
  constructor
  · rw [subscribe_subscriptions]
    exact keysNodup_upsert _ _ hw.subsKeysNodup
  · rw [subscribe_domainWatchers]
    exact keysNodup_upsert _ _ hw.watchKeysNodup
  · rw [subscribe_unfold]
    exact startPeriodicReports_timerKeys u hw.timerKeysNodup
  · intro u' sub' hmem
    rw [subscribe_subscriptions] at hmem
    rcases mem_upsert hmem with h | h
    · have h2 : sub' =
          ⟨sAdd d (subRecord s u).domains, mergePrefs (subRecord s u).preferences p⟩ :=
        congrArg Prod.snd h
      rw [h2]
      exact nodup_sAdd d (subRecord_domains_nodup hw u)
    · exact hw.domainsNodup u' sub' h
  · intro d' ws' hmem
    rw [subscribe_domainWatchers] at hmem
    rcases mem_upsert hmem with h | h
    · have h2 : ws' = sAdd u (watcherList s d) := congrArg Prod.snd h
      rw [h2]
      exact nodup_sAdd u (watcherList_nodup hw d)
    · exact hw.watchersNodup d' ws' h
  · intro d' ws' hfind
    rw [subscribe_domainWatchers] at hfind
    by_cases h : d' = d
    · subst h
      rw [findVal_upsert_self] at hfind
      cases hfind
      exact sAdd_ne_nil u _
    · rw [findVal_upsert_ne _ _ h] at hfind
      exact hw.watchersNonempty d' ws' hfind
  · intro u' d'
    rw [subscribe_watcherList, subscribe_userDomains]
    by_cases hd : d' = d <;> by_cases hu : u' = u
    · simp only [if_pos hd, if_pos hu, hd, hu]
      simp [mem_sAdd_self]
    · rw [if_pos hd, if_neg hu, hd, mem_sAdd]
      simp [hu]
      exact hw.sync u' d
    · rw [if_neg hd, if_pos hu, hu, mem_sAdd]
      simp [hd]
      rw [← userDomains_eq_subRecord]
      exact hw.sync u d'
    · simp only [if_neg hd, if_neg hu]
      exact hw.sync u' d'
  · rw [subscribe_isMonitoring, subscribe_monitoringInterval]
    cases hm : s.isMonitoring with
    | true =>
      have := hw.monSync
      rw [hm] at this
      simp [← this]
    | false => simp
  · rw [subscribe_liveGlobalTimers, subscribe_isMonitoring]
    have := hw.monCount
    cases hm : s.isMonitoring with
    | true => simpa [hm] using this
    | false => simpa [hm] using this

theorem userDomains_of_some {s : SubscriptionService} {u : Nat} {sub : UserSub}
    (h : findVal u s.subscriptions = some sub) : userDomains s u = sub.domains := by
  unfold userDomains
  rw [h]
  rfl

theorem watcherList_of_some {s : SubscriptionService} {d : String} {ws : List Nat}
    (h : findVal d s.domainWatchers = some ws) : watcherList s d = ws := by
  unfold watcherList
  rw [h]
  rfl

theorem wf_unsubscribe {s : SubscriptionService} (hw : WellFormed s) (u : Nat) (d : String) :
    WellFormed (unsubscribe u d s).1 := by
  unfold unsubscribe
  cases h : findVal u s.subscriptions with
  | none => exact hw
  | some sub =>
    dsimp only
    by_cases hd : d ∈ sub.domains
    · rw [if_pos hd]
      dsimp only
      have hds : d ∈ userDomains s u := by
        rw [userDomains_of_some h]
        exact hd
      have husync := (hw.sync u d).mpr hds
      have hsubnd : sub.domains.Nodup := hw.domainsNodup u sub (mem_of_findVal h)
      cases h2 : findVal d s.domainWatchers with
      | none =>
        exfalso
        unfold watcherList at husync
        rw [h2] at husync
        simp at husync
      | some ws =>
        dsimp only
        have hws : u ∈ ws := by
          rw [watcherList_of_some h2] at husync
          exact husync
        have hwsnd : ws.Nodup := hw.watchersNodup d ws (mem_of_findVal h2)
        by_cases hlen : (sDel u ws).length = 0
        · rw [if_pos hlen]
          have hnil : sDel u ws = [] := List.length_eq_zero.mp hlen
          constructor
          · exact keysNodup_upsert _ _ hw.subsKeysNodup
          · exact keysNodup_eraseKey _ hw.watchKeysNodup
          · exact hw.timerKeysNodup
          · intro u' sub' hmem
            rcases mem_upsert hmem with hm | hm
            · have h3 : sub' = { sub with domains := sDel d sub.domains } :=
                congrArg Prod.snd hm
              rw [h3]
              exact nodup_sDel d hsubnd
            · exact hw.domainsNodup u' sub' hm
          · intro d' ws' hmem
            exact hw.watchersNodup d' ws' ((eraseKey_sublist d s.domainWatchers).subset hmem)
          · intro d' ws' hfind
            by_cases hd' : d' = d
            · rw [hd', findVal_eraseKey_self hw.watchKeysNodup] at hfind
              cases hfind
            · rw [findVal_eraseKey_ne _ hd'] at hfind
              exact hw.watchersNonempty d' ws' hfind
          · intro u' d'
            unfold watcherList userDomains
            dsimp only
            by_cases hd' : d' = d
            · rw [hd', findVal_eraseKey_self hw.watchKeysNodup]
              simp only [Option.getD_none, List.not_mem_nil, false_iff]
              by_cases hu' : u' = u
              · rw [hu', findVal_upsert_self]
                try simp only [Option.map_some, Option.map_some', Option.getD_some]
                exact not_mem_sDel_self hsubnd
              · rw [findVal_upsert_ne _ _ hu']
                intro hcontra
                have : u' ∈ watcherList s d := (hw.sync u' d).mpr (by
                  unfold userDomains
                  exact hcontra)
                rw [watcherList_of_some h2] at this
                have : u' ∈ sDel u ws := (mem_sDel_ne ws hu').mpr this
                rw [hnil] at this
                simp at this
            · rw [findVal_eraseKey_ne _ hd']
              by_cases hu' : u' = u
              · rw [hu', findVal_upsert_self]
                try simp only [Option.map_some, Option.map_some', Option.getD_some]
                have hbase := hw.sync u d'
                rw [userDomains_of_some h] at hbase
                rw [mem_sDel_ne _ hd']
                unfold watcherList at hbase
                exact hbase
              · rw [findVal_upsert_ne _ _ hu']
                have hbase := hw.sync u' d'
                unfold watcherList userDomains at hbase
                exact hbase
          · exact hw.monSync
          · exact hw.monCount
        · rw [if_neg hlen]
          constructor
          · exact keysNodup_upsert _ _ hw.subsKeysNodup
          · exact keysNodup_upsert _ _ hw.watchKeysNodup
          · exact hw.timerKeysNodup
          · intro u' sub' hmem
            rcases mem_upsert hmem with hm | hm
            · have h3 : sub' = { sub with domains := sDel d sub.domains } :=
                congrArg Prod.snd hm
              rw [h3]
              exact nodup_sDel d hsubnd
            · exact hw.domainsNodup u' sub' hm
          · intro d' ws' hmem
            rcases mem_upsert hmem with hm | hm
            · have h3 : ws' = sDel u ws := congrArg Prod.snd hm
              rw [h3]
              exact nodup_sDel u hwsnd
            · exact hw.watchersNodup d' ws' hm
          · intro d' ws' hfind
            by_cases hd' : d' = d
            · rw [hd', findVal_upsert_self] at hfind
              cases hfind
              intro hcontra
              exact hlen (by rw [hcontra]; rfl)
            · rw [findVal_upsert_ne _ _ hd'] at hfind
              exact hw.watchersNonempty d' ws' hfind
          · intro u' d'
            unfold watcherList userDomains
            dsimp only
            by_cases hd' : d' = d
            · rw [hd', findVal_upsert_self]
              try simp only [Option.getD_some]
              by_cases hu' : u' = u
              · rw [hu', findVal_upsert_self]
                try simp only [Option.map_some, Option.map_some', Option.getD_some]
                constructor
                · intro hcontra
                  exact absurd hcontra (not_mem_sDel_self hwsnd)
                · intro hcontra
                  exact absurd hcontra (not_mem_sDel_self hsubnd)
              · rw [findVal_upsert_ne _ _ hu']
                rw [mem_sDel_ne _ hu']
                have hbase := hw.sync u' d
                rw [watcherList_of_some h2] at hbase
                unfold userDomains at hbase
                exact hbase
            · rw [findVal_upsert_ne _ _ hd']
              by_cases hu' : u' = u
              · rw [hu', findVal_upsert_self]
                try simp only [Option.map_some, Option.map_some', Option.getD_some]
                rw [mem_sDel_ne _ hd']
                have hbase := hw.sync u d'
                rw [userDomains_of_some h] at hbase
                unfold watcherList at hbase
                exact hbase
              · rw [findVal_upsert_ne _ _ hu']
                have hbase := hw.sync u' d'
                unfold watcherList userDomains at hbase
                exact hbase
          · exact hw.monSync
          · exact hw.monCount
    · rw [if_neg hd]
      exact hw

theorem wf_of_fields_eq {t s : SubscriptionService} (hw : WellFormed s)
    (h1 : t.subscriptions = s.subscriptions) (h2 : t.domainWatchers = s.domainWatchers)
    (h3 : (keys t.reportTimers).Nodup) (h4 : t.isMonitoring = s.isMonitoring)
    (h5 : t.monitoringInterval = s.monitoringInterval)
    (h6 : t.liveGlobalTimers = s.liveGlobalTimers) : WellFormed t := by
  constructor
  · rw [h1]
    exact hw.subsKeysNodup
  · rw [h2]
    exact hw.watchKeysNodup
  · exact h3
  · intro u sub hmem
    rw [h1] at hmem
    exact hw.domainsNodup u sub hmem
  · intro d ws hmem
    rw [h2] at hmem
    exact hw.watchersNodup d ws hmem
  · intro d ws hfind
    rw [h2] at hfind
    exact hw.watchersNonempty d ws hfind
  · intro u' d'
    unfold watcherList userDomains
    rw [h1, h2]
    have hbase := hw.sync u' d'
    unfold watcherList userDomains at hbase
    exact hbase
  · rw [h4, h5]
    exact hw.monSync
  · rw [h6, h4]
    exact hw.monCount

theorem wf_startPeriodicReports {s : SubscriptionService} (hw : WellFormed s) (u : Nat) :
    WellFormed (startPeriodicReports u s) :=
  wf_of_fields_eq hw (startPeriodicReports_subscriptions u s)
    (startPeriodicReports_domainWatchers u s) (startPeriodicReports_timerKeys u hw.timerKeysNodup)
    (startPeriodicReports_isMonitoring u s) (startPeriodicReports_monitoringInterval u s)
    (startPeriodicReports_liveGlobalTimers u s)

theorem wf_stopPeriodicReports {s : SubscriptionService} (hw : WellFormed s) (u : Nat) :
    WellFormed (stopPeriodicReports u s) :=
  wf_of_fields_eq hw (stopPeriodicReports_subscriptions u s)
    (stopPeriodicReports_domainWatchers u s) (stopPeriodicReports_timerKeys u hw.timerKeysNodup)
    (stopPeriodicReports_isMonitoring u s) (stopPeriodicReports_monitoringInterval u s)
    (stopPeriodicReports_liveGlobalTimers u s)

theorem wf_upsert_same_domains {s : SubscriptionService} (hw : WellFormed s) {u : Nat}
    {sub : UserSub} (sub₁ : UserSub) (h : findVal u s.subscriptions = some sub)
    (hdom : sub₁.domains = sub.domains) :
    WellFormed { s with subscriptions := upsert u sub₁ s.subscriptions } := by
  constructor
  · exact keysNodup_upsert _ _ hw.subsKeysNodup
  · exact hw.watchKeysNodup
  · exact hw.timerKeysNodup
  · intro u' sub' hmem
    rcases mem_upsert hmem with hm | hm
    · have h3 : sub' = sub₁ := congrArg Prod.snd hm
      rw [h3, hdom]
      exact hw.domainsNodup u sub (mem_of_findVal h)
    · exact hw.domainsNodup u' sub' hm
  · exact hw.watchersNodup
  · exact hw.watchersNonempty
  · intro u' d'
    unfold watcherList userDomains
    dsimp only
    by_cases hu' : u' = u
    · rw [hu', findVal_upsert_self]
      try simp only [Option.map_some, Option.map_some', Option.getD_some]
      rw [hdom]
      have hbase := hw.sync u d'
      rw [userDomains_of_some h] at hbase
      unfold watcherList at hbase
      exact hbase
    · rw [findVal_upsert_ne _ _ hu']
      have hbase := hw.sync u' d'
      unfold watcherList userDomains at hbase
      exact hbase
  · exact hw.monSync
  · exact hw.monCount

theorem wf_updatePreferences {s : SubscriptionService} (hw : WellFormed s) (u : Nat)
    (p : PrefPatch) : WellFormed (updatePreferences u p s).1 := by
  unfold updatePreferences
  cases h : findVal u s.subscriptions with
  | none => exact hw
  | some sub =>
    dsimp only
    exact wf_upsert_same_domains hw
      { sub with preferences := mergePrefs sub.preferences p } h rfl

theorem wf_setReportInterval {s : SubscriptionService} (hw : WellFormed s) (u : Nat)
    (i : String) : WellFormed (setReportInterval u i s).1 := by
  unfold setReportInterval
  by_cases hv : (reportIntervals i).truthy = false
  · rw [if_pos hv]
    exact hw
  · rw [if_neg hv]
    cases h : findVal u s.subscriptions with
    | none => exact hw
    | some sub =>
      dsimp only
      exact wf_startPeriodicReports (wf_upsert_same_domains hw
        { sub with preferences := { sub.preferences with reportInterval := i } } h rfl) u

theorem wf_togglePeriodicReports {s : SubscriptionService} (hw : WellFormed s) (u : Nat)
    (b : Bool) : WellFormed (togglePeriodicReports u b s).1 := by
  unfold togglePeriodicReports
  cases h : findVal u s.subscriptions with
  | none => exact hw
  | some sub =>
    dsimp only
    cases b with
    | true =>
      simp only [if_true]
      exact wf_startPeriodicReports (wf_upsert_same_domains hw
        { sub with preferences := { sub.preferences with periodicReports := true } } h rfl) u
    | false =>
      simp only [Bool.false_eq_true, if_false]
      exact wf_stopPeriodicReports (wf_upsert_same_domains hw
        { sub with preferences := { sub.preferences with periodicReports := false } } h rfl) u

theorem wf_startEventMonitoring {s : SubscriptionService} (hw : WellFormed s) :
    WellFormed (startEventMonitoring s) := by
  unfold startEventMonitoring
  split
  · exact hw
  · rename_i hmon
    have hmon' : s.isMonitoring = false := by
      cases hv : s.isMonitoring
      · rfl
      · exact absurd hv hmon
    constructor
    · exact hw.subsKeysNodup
    · exact hw.watchKeysNodup
    · exact hw.timerKeysNodup
    · exact hw.domainsNodup
    · exact hw.watchersNodup
    · exact hw.watchersNonempty
    · exact hw.sync
    · simp
    · have := hw.monCount
      rw [hmon'] at this
      simp [this]

theorem wf_stopEventMonitoring {s : SubscriptionService} (hw : WellFormed s) :
    WellFormed (stopEventMonitoring s) := by
  unfold stopEventMonitoring
  cases hmi : s.monitoringInterval with
  | some x =>
    have hmon : s.isMonitoring = true := by
      rw [hw.monSync, hmi]
      rfl
    constructor
    · exact hw.subsKeysNodup
    · exact hw.watchKeysNodup
    · exact hw.timerKeysNodup
    · exact hw.domainsNodup
    · exact hw.watchersNodup
    · exact hw.watchersNonempty
    · exact hw.sync
    · simp
    · have := hw.monCount
      rw [hmon] at this
      simp [this]
  | none =>
    have hmon : s.isMonitoring = false := by
      rw [hw.monSync, hmi]
      rfl
    constructor
    · exact hw.subsKeysNodup
    · exact hw.watchKeysNodup
    · exact hw.timerKeysNodup
    · exact hw.domainsNodup
    · exact hw.watchersNodup
    · exact hw.watchersNonempty
    · exact hw.sync
    · simp
    · have := hw.monCount
      rw [hmon] at this
      simp [this]

/-- Every reachable state satisfies the structural invariant. -/
theorem wf_reachable {s : SubscriptionService} (h : Reachable s) : WellFormed s := by
  induction h with
  | init => exact wf_init
  | subscribe u d p _ ih => exact wf_subscribe ih u d p
  | unsubscribe u d _ ih => exact wf_unsubscribe ih u d
  | updatePreferences u p _ ih => exact wf_updatePreferences ih u p
  | setReportInterval u i _ ih => exact wf_setReportInterval ih u i
  | togglePeriodicReports u b _ ih => exact wf_togglePeriodicReports ih u b
  | startEventMonitoring _ ih => exact wf_startEventMonitoring ih
  | stopEventMonitoring _ ih => exact wf_stopEventMonitoring ih

/-! ## The report-timer invariant (claim C4) -/

/-- The report-timer condition for one user: a live timer entry exists exactly
when the user has a subscription record with `periodicReports = true`, and the
armed period equals the one computed from the stored interval name. -/
def TimerInvAt (s : SubscriptionService) (u : Nat) : Prop :=
  ((findVal u s.reportTimers).isSome = true ↔
    ∃ sub, findVal u s.subscriptions = some sub ∧ sub.preferences.periodicReports = true) ∧
  ∀ ms, findVal u s.reportTimers = some ms →
    ∃ sub, findVal u s.subscriptions = some sub ∧ ms = timerMs sub.preferences

/-- The report-timer invariant for every user. -/
def TimerInv (s : SubscriptionService) : Prop := ∀ u, TimerInvAt s u

theorem timerInvAt_congr {t s : SubscriptionService} {u : Nat}
    (h1 : findVal u t.reportTimers = findVal u s.reportTimers)
    (h2 : findVal u t.subscriptions = findVal u s.subscriptions)
    (hat : TimerInvAt s u) : TimerInvAt t u := by
  unfold TimerInvAt at *
  rw [h1, h2]
  exact hat

theorem timerInvAt_some_flag {s : SubscriptionService} {u : Nat} {sub : UserSub}
    (h : findVal u s.subscriptions = some sub) :
    TimerInvAt s u ↔
      (((findVal u s.reportTimers).isSome = true ↔ sub.preferences.periodicReports = true) ∧
        ∀ ms, findVal u s.reportTimers = some ms → ms = timerMs sub.preferences) := by
  unfold TimerInvAt
  rw [h]
  simp

theorem timerInvAt_startPR_self {s : SubscriptionService} (u : Nat)
    (hnd : (keys s.reportTimers).Nodup) : TimerInvAt (startPeriodicReports u s) u := by
  have hfv := startPeriodicReports_findVal_self u hnd
  unfold TimerInvAt
  rw [hfv, startPeriodicReports_subscriptions]
  cases h : findVal u s.subscriptions with
  | none => simp
  | some sub =>
    cases hp : sub.preferences.periodicReports with
    | true => simp [hp]
    | false => simp [hp]

theorem timerInvAt_stopPR_false {s : SubscriptionService} {u : Nat} {sub₁ : UserSub}
    (hnd : (keys s.reportTimers).Nodup) (h : findVal u s.subscriptions = some sub₁)
    (hflag : sub₁.preferences.periodicReports = false) :
    TimerInvAt (stopPeriodicReports u s) u := by
  unfold TimerInvAt
  rw [stopPeriodicReports_findVal_self u hnd, stopPeriodicReports_subscriptions, h]
  simp [hflag]

theorem timerInv_init : TimerInv initService := by
  intro u
  unfold TimerInvAt
  simp [initService, findVal]

theorem timerInv_subscribe {s : SubscriptionService} (hw : WellFormed s) (hti : TimerInv s)
    (u : Nat) (d : String) (p : PrefPatch) : TimerInv (subscribe u d p s).1 := by
  rw [subscribe_unfold]
  intro u'
  by_cases hu : u' = u
  · rw [hu]
    exact timerInvAt_startPR_self u hw.timerKeysNodup
  · refine timerInvAt_congr ?_ ?_ (hti u')
    · rw [startPeriodicReports_findVal_ne _ hu]
    · rw [startPeriodicReports_subscriptions]
      exact findVal_upsert_ne _ _ hu

theorem timerInv_unsubscribe {s : SubscriptionService} (hti : TimerInv s) (u : Nat)
    (d : String) : TimerInv (unsubscribe u d s).1 := by
  unfold unsubscribe
  cases h : findVal u s.subscriptions with
  | none => exact hti
  | some sub =>
    dsimp only
    by_cases hd : d ∈ sub.domains
    · rw [if_pos hd]
      dsimp only
      intro u'
      by_cases hu : u' = u
      · rw [hu]
        have hat := hti u
        rw [timerInvAt_some_flag h] at hat
        rw [timerInvAt_some_flag (show _ = some { sub with domains := sDel d sub.domains } from
          findVal_upsert_self u _ s.subscriptions)]
        exact hat
      · refine timerInvAt_congr ?_ ?_ (hti u')
        · rfl
        · exact findVal_upsert_ne _ _ hu
    · rw [if_neg hd]
      exact hti

theorem timerInv_setReportInterval {s : SubscriptionService} (hw : WellFormed s)
    (hti : TimerInv s) (u : Nat) (i : String) : TimerInv (setReportInterval u i s).1 := by
  unfold setReportInterval
  by_cases hv : (reportIntervals i).truthy = false
  · rw [if_pos hv]
    exact hti
  · rw [if_neg hv]
    cases h : findVal u s.subscriptions with
    | none => exact hti
    | some sub =>
      dsimp only
      intro u'
      by_cases hu : u' = u
      · rw [hu]
        exact timerInvAt_startPR_self u hw.timerKeysNodup
      · refine timerInvAt_congr ?_ ?_ (hti u')
        · rw [startPeriodicReports_findVal_ne _ hu]
        · rw [startPeriodicReports_subscriptions]
          exact findVal_upsert_ne _ _ hu

theorem timerInv_togglePeriodicReports {s : SubscriptionService} (hw : WellFormed s)
    (hti : TimerInv s) (u : Nat) (b : Bool) : TimerInv (togglePeriodicReports u b s).1 := by
  unfold togglePeriodicReports
  cases h : findVal u s.subscriptions with
  | none => exact hti
  | some sub =>
    dsimp only
    cases b with
    | true =>
      simp only [if_true]
      intro u'
      by_cases hu : u' = u
      · rw [hu]
        exact timerInvAt_startPR_self u hw.timerKeysNodup
      · refine timerInvAt_congr ?_ ?_ (hti u')
        · rw [startPeriodicReports_findVal_ne _ hu]
        · rw [startPeriodicReports_subscriptions]
          exact findVal_upsert_ne _ _ hu
    | false =>
      simp only [Bool.false_eq_true, if_false]
      intro u'
      by_cases hu : u' = u
      · rw [hu]
        exact timerInvAt_stopPR_false hw.timerKeysNodup
          (findVal_upsert_self u _ s.subscriptions) rfl
      · refine timerInvAt_congr ?_ ?_ (hti u')
        · exact stopPeriodicReports_findVal_ne _ hu
        · rw [stopPeriodicReports_subscriptions]
          exact findVal_upsert_ne _ _ hu

theorem timerInv_startEventMonitoring {s : SubscriptionService} (hti : TimerInv s) :
    TimerInv (startEventMonitoring s) := fun u =>
  timerInvAt_congr (by rw [startEventMonitoring_reportTimers])
    (by rw [startEventMonitoring_subscriptions]) (hti u)

theorem timerInv_stopEventMonitoring {s : SubscriptionService} (hti : TimerInv s) :
    TimerInv (stopEventMonitoring s) := fun u =>
  timerInvAt_congr (by rw [stopEventMonitoring_reportTimers])
    (by rw [stopEventMonitoring_subscriptions]) (hti u)

/-- Along histories that never call `updatePreferences`, the report-timer
invariant holds at every reachable state. -/
theorem timerInv_noUpd {s : SubscriptionService} (h : ReachableNoUpd s) : TimerInv s := by
  induction h with
  | init => exact timerInv_init
  | subscribe u d p hr ih =>
    exact timerInv_subscribe (wf_reachable (reachable_of_noUpd hr)) ih u d p
  | unsubscribe u d hr ih => exact timerInv_unsubscribe ih u d
  | setReportInterval u i hr ih =>
    exact timerInv_setReportInterval (wf_reachable (reachable_of_noUpd hr)) ih u i
  | togglePeriodicReports u b hr ih =>
    exact timerInv_togglePeriodicReports (wf_reachable (reachable_of_noUpd hr)) ih u b
  | startEventMonitoring hr ih => exact timerInv_startEventMonitoring ih
  | stopEventMonitoring hr ih => exact timerInv_stopEventMonitoring ih

/-! ## Claim theorems -/

/-- C1: Registry/index synchronization invariant.  At every state reachable
through the public operations (subscribe, unsubscribe, updatePreferences,
setReportInterval, togglePeriodicReports, startEventMonitoring,
stopEventMonitoring; getUserSubscriptions and getStats are embedded as pure
reads and cannot change the state), a userId is in the watcher set of a domain
iff the domain is in that user's subscription domain set, the watcher index
has an entry for a domain iff at least one user currently watches it, and no
watcher set is present and empty.  The invariant holds initially
(`Reachable.init`) and is preserved by every operation. -/
theorem C1_registry_index_sync {s : SubscriptionService} (hr : Reachable s) :
    (∀ u d, u ∈ watcherList s d ↔ d ∈ userDomains s u) ∧
    (∀ d, (findVal d s.domainWatchers).isSome = true ↔ ∃ u, d ∈ userDomains s u) ∧
    (∀ d ws, findVal d s.domainWatchers = some ws → ws ≠ []) := by
  have hw := wf_reachable hr
  refine ⟨hw.sync, ?_, hw.watchersNonempty⟩
  intro d
  constructor
  · intro hs
    cases h : findVal d s.domainWatchers with
    | none =>
      rw [h] at hs
      simp at hs
    | some ws =>
      have hne := hw.watchersNonempty d ws h
      obtain ⟨u, hu⟩ := List.exists_mem_of_ne_nil ws hne
      refine ⟨u, (hw.sync u d).mp ?_⟩
      rw [watcherList_of_some h]
      exact hu
  · rintro ⟨u, hu⟩
    have hmem := (hw.sync u d).mpr hu
    unfold watcherList at hmem
    cases h : findVal d s.domainWatchers with
    | none =>
      rw [h] at hmem
      simp at hmem
    | some ws => simp

/-- Witness for C1: the invariant instantiated at the initial state. -/
theorem C1_registry_index_sync_witness :
    (∀ u d, u ∈ watcherList initService d ↔ d ∈ userDomains initService u) ∧
    (∀ d, (findVal d initService.domainWatchers).isSome = true ↔
      ∃ u, d ∈ userDomains initService u) ∧
    (∀ d ws, findVal d initService.domainWatchers = some ws → ws ≠ []) :=
  C1_registry_index_sync Reachable.init

/-- C2: Subscribe postcondition.  After `subscribe(userId, domain)` (empty
preference patch, as in the two-argument call), the domain is in
`getUserSubscriptions(userId).domains` and the userId is in the domain's
watcher set; and if no user watched the domain before the call,
`getStats().totalDomains` is exactly one greater than before. -/
theorem C2_subscribe_postcondition {s : SubscriptionService} (hr : Reachable s) (u : Nat)
    (d : String) :
    d ∈ (getUserSubscriptions u (subscribe u d {} s).1).domains ∧
    u ∈ watcherList (subscribe u d {} s).1 d ∧
    ((∀ v, v ∉ watcherList s d) →
      (getStats (subscribe u d {} s).1).totalDomains = (getStats s).totalDomains + 1) := by
  have hw := wf_reachable hr
  refine ⟨?_, ?_, ?_⟩
  · unfold getUserSubscriptions
    rw [subscribe_subscriptions, findVal_upsert_self]
    exact mem_sAdd_self d _
  · rw [subscribe_watcherList, if_pos rfl]
    exact mem_sAdd_self u _
  · intro hnone
    have hfv : findVal d s.domainWatchers = none := by
      cases h : findVal d s.domainWatchers with
      | none => rfl
      | some ws =>
        have hne := hw.watchersNonempty d ws h
        obtain ⟨v, hv⟩ := List.exists_mem_of_ne_nil ws hne
        exact absurd (by rw [watcherList_of_some h]; exact hv) (hnone v)
    unfold getStats
    dsimp only
    rw [subscribe_domainWatchers]
    exact length_upsert_of_none _ hfv

/-- Witness for C2: subscribing user 1 to a fresh domain on the empty state. -/
theorem C2_subscribe_postcondition_witness :
    "a.com" ∈ (getUserSubscriptions 1 (subscribe 1 "a.com" {} initService).1).domains ∧
    1 ∈ watcherList (subscribe 1 "a.com" {} initService).1 "a.com" ∧
    ((∀ v, v ∉ watcherList initService "a.com") →
      (getStats (subscribe 1 "a.com" {} initService).1).totalDomains =
        (getStats initService).totalDomains + 1) :=
  C2_subscribe_postcondition Reachable.init 1 "a.com"

/-- C5 (code bug): the claim states the documented intent — the failure
message of `setReportInterval` itself enumerates "10min, 30min, 12h, 1day"
and its doc comment lists the same four values — but the validation
`!this.reportIntervals[interval]` is a bracket lookup on an object literal
and consults `Object.prototype`, so the inherited `constructor` property is
truthy and validation passes.  Evaluating the embedded code at the failing
input: with an existing record for user 1, `setReportInterval(1,
"constructor")` returns success, stores the out-of-enumeration interval
(read back by `getUserSubscriptions`), and re-arms the report timer with the
coerced zero delay that `reportIntervals["constructor"]` produces in
`startPeriodicReports` — contradicting the claimed failure without
mutation. -/
theorem C5_prototype_chain_code_bug :
    "constructor" ∉ ["10min", "30min", "12h", "1day"] ∧
    (setReportInterval 1 "constructor" (subscribe 1 "a.com" {} initService).1).2 =
      ⟨true, "Report interval set to constructor"⟩ ∧
    (getUserSubscriptions 1
        (setReportInterval 1 "constructor"
          (subscribe 1 "a.com" {} initService).1).1).preferences.reportInterval =
      "constructor" ∧
    findVal 1 (setReportInterval 1 "constructor"
        (subscribe 1 "a.com" {} initService).1).1.reportTimers = some 0 := by
  decide

/-- C6 counterexample: on the empty registry, the snapshot returned for the
unknown user 1 carries `priceAlerts = false` and `periodicReports = false`,
not the all-true documented defaults the claim states. -/
theorem C6_counterexample :
    (getUserSubscriptions 1 initService).preferences.priceAlerts = false ∧
    (getUserSubscriptions 1 initService).preferences.expirationAlerts = false ∧
    (getUserSubscriptions 1 initService).preferences.saleAlerts = false ∧
    (getUserSubscriptions 1 initService).preferences.transferAlerts = false ∧
    (getUserSubscriptions 1 initService).preferences.periodicReports = false := by
  decide

/-- C6 (amended): for every userId with no subscription record,
`getUserSubscriptions` returns the snapshot with an empty domains list,
`priceAlerts`, `expirationAlerts`, `saleAlerts`, `transferAlerts` and
`periodicReports` all false, `scoreThreshold` 80 and `reportInterval`
"30min"; the call is total (never fails) and, being embedded as a pure
function of the state, never creates a subscription record. -/
theorem C6_unknown_user_read {s : SubscriptionService} {u : Nat}
    (h : findVal u s.subscriptions = none) :
    getUserSubscriptions u s =
      ⟨[], ⟨false, false, false, false, 80, "30min", false⟩⟩ := by
  unfold getUserSubscriptions
  rw [h]

/-- Witness for C6: the unknown user 1 on the empty registry. -/
theorem C6_unknown_user_read_witness :
    getUserSubscriptions 1 initService =
      ⟨[], ⟨false, false, false, false, 80, "30min", false⟩⟩ :=
  C6_unknown_user_read (by decide)

/-- C7: New-event determination.  The `isNew` checks accept every fetched
activity, listing and offer (no deduplication), and `detectNewEvents`
produces an event of the corresponding type for each of the three categories
exactly when that category's fetched list is non-empty. -/
theorem C7_new_event_determination (domain : String) (dd : Option Unit)
    (activities : List Activity) (listings : List Listing) (offers : List Offer) :
    (∀ a, isNewActivity domain a = true) ∧
    (∀ l, isNewListing domain l = true) ∧
    (∀ o, isNewOffer domain o = true) ∧
    ((∃ e ∈ detectNewEvents domain dd activities listings offers,
        e.eventType = "ACTIVITY") ↔ activities ≠ []) ∧
    ((∃ e ∈ detectNewEvents domain dd activities listings offers,
        e.eventType = "LISTING") ↔ listings ≠ []) ∧
    ((∃ e ∈ detectNewEvents domain dd activities listings offers,
        e.eventType = "OFFER") ↔ offers ≠ []) := by
  refine ⟨fun a => rfl, fun l => rfl, fun o => rfl, ?_, ?_, ?_⟩ <;>
    cases activities <;> cases listings <;> cases offers <;>
      simp [detectNewEvents, isNewActivity, isNewListing, isNewOffer]

/-- Structural description of the success branch of `unsubscribe`. -/
theorem unsubscribe_spec {s : SubscriptionService} {u : Nat} {d : String} {sub : UserSub}
    (h : findVal u s.subscriptions = some sub) (hd : d ∈ sub.domains) :
    (unsubscribe u d s).1 =
      { s with
        subscriptions := upsert u { sub with domains := sDel d sub.domains } s.subscriptions
        domainWatchers :=
          match findVal d s.domainWatchers with
          | none => s.domainWatchers
          | some ws =>
            if (sDel u ws).length = 0 then eraseKey d s.domainWatchers
            else upsert d (sDel u ws) s.domainWatchers } ∧
    (unsubscribe u d s).2 = ⟨true, "Successfully unsubscribed from " ++ d⟩ := by
  unfold unsubscribe
  rw [h]
  dsimp only
  rw [if_pos hd]
  exact ⟨rfl, rfl⟩

/-- C3 (amended): for a user not currently subscribed to the domain, a
successful subscribe followed by unsubscribe for the same pair restores the
user's domain set and the whole domain-watcher index to their pre-subscribe
values; totalDomains drops back by one when the domain had no other watcher
(the unsubscriber was the last watcher) and is unchanged from the
post-subscribe count when another watcher remains.  (The original claim,
quantified over every userId and domain, fails when the user was already
subscribed: the second subscribe is absorbed by the set and the unsubscribe
then removes the pre-existing entry — see the counterexample.) -/
theorem C3_round_trip {s : SubscriptionService} (hr : Reachable s) (u : Nat) (d : String)
    (hfresh : d ∉ userDomains s u) :
    (unsubscribe u d (subscribe u d {} s).1).2.success = true ∧
    userDomains (unsubscribe u d (subscribe u d {} s).1).1 u = userDomains s u ∧
    (unsubscribe u d (subscribe u d {} s).1).1.domainWatchers = s.domainWatchers ∧
    ((∀ v, v ∉ watcherList s d) →
      (getStats (unsubscribe u d (subscribe u d {} s).1).1).totalDomains + 1 =
        (getStats (subscribe u d {} s).1).totalDomains) ∧
    ((∃ v, v ∈ watcherList s d) →
      (getStats (unsubscribe u d (subscribe u d {} s).1).1).totalDomains =
        (getStats (subscribe u d {} s).1).totalDomains) := by
  have hw := wf_reachable hr
  have hr0 : d ∉ (subRecord s u).domains := by
    rw [← userDomains_eq_subRecord]
    exact hfresh
  have hsub1 : findVal u (subscribe u d {} s).1.subscriptions =
      some ⟨sAdd d (subRecord s u).domains, mergePrefs (subRecord s u).preferences {}⟩ := by
    rw [subscribe_subscriptions]
    exact findVal_upsert_self u _ s.subscriptions
  obtain ⟨hstate, hres⟩ := unsubscribe_spec hsub1 (mem_sAdd_self d _)
  have hdW : (unsubscribe u d (subscribe u d {} s).1).1.domainWatchers = s.domainWatchers := by
    rw [hstate]
    dsimp only
    rw [subscribe_domainWatchers, findVal_upsert_self]
    dsimp only
    cases hdw : findVal d s.domainWatchers with
    | none =>
      have hwl : watcherList s d = [] := by
        unfold watcherList
        rw [hdw]
        rfl
      rw [hwl]
      rw [show sAdd u ([] : List Nat) = [u] from by simp [sAdd]]
      rw [show sDel u [u] = [] from by simp [sDel]]
      rw [if_pos (show ([] : List Nat).length = 0 from rfl)]
      rw [upsert_of_findVal_none _ hdw]
      exact eraseKey_append_of_none _ hdw
    | some ws =>
      have hne := hw.watchersNonempty d ws hdw
      have hwl : watcherList s d = ws := watcherList_of_some hdw
      have hnotin : u ∉ ws := by
        intro hin
        refine hfresh ((hw.sync u d).mp ?_)
        rw [hwl]
        exact hin
      rw [hwl, sAdd_of_not_mem hnotin, sDel_append_self hnotin]
      rw [if_neg (fun hh => hne (List.length_eq_zero.mp hh))]
      rw [upsert_upsert]
      exact upsert_findVal_self hdw
  refine ⟨by rw [hres], ?_, hdW, ?_, ?_⟩
  · rw [hstate]
    unfold userDomains
    dsimp only
    rw [subscribe_subscriptions, upsert_upsert, findVal_upsert_self]
    try simp only [Option.map_some, Option.map_some', Option.getD_some]
    show sDel d (sAdd d (subRecord s u).domains) = userDomains s u
    rw [sDel_sAdd hr0, userDomains_eq_subRecord]
  · intro hnone
    have hfv : findVal d s.domainWatchers = none := by
      cases h : findVal d s.domainWatchers with
      | none => rfl
      | some ws =>
        have hne := hw.watchersNonempty d ws h
        obtain ⟨v, hv⟩ := List.exists_mem_of_ne_nil ws hne
        refine absurd ?_ (hnone v)
        rw [watcherList_of_some h]
        exact hv
    unfold getStats
    dsimp only
    rw [hdW, subscribe_domainWatchers, length_upsert_of_none _ hfv]
  · rintro ⟨v, hv⟩
    have hfv : ∃ ws, findVal d s.domainWatchers = some ws := by
      cases hdw : findVal d s.domainWatchers with
      | none =>
        unfold watcherList at hv
        rw [hdw] at hv
        simp at hv
      | some ws => exact ⟨ws, rfl⟩
    obtain ⟨ws, hws⟩ := hfv
    unfold getStats
    dsimp only
    rw [hdW, subscribe_domainWatchers, length_upsert_of_some _ hws]

/-- C3 counterexample: for user 1 already subscribed to "a.com", a second
subscribe followed by unsubscribe does not restore the domain set — it is
emptied, while the pre-subscribe set held the domain. -/
theorem C3_counterexample :
    userDomains
        (unsubscribe 1 "a.com"
          (subscribe 1 "a.com" {} (subscribe 1 "a.com" {} initService).1).1).1 1 ≠
      userDomains (subscribe 1 "a.com" {} initService).1 1 := by
  decide

/-- Witness for C3: user 1 and the fresh domain "a.com" on the empty state. -/
theorem C3_round_trip_witness :
    Reachable initService ∧ "a.com" ∉ userDomains initService 1 ∧
    ((unsubscribe 1 "a.com" (subscribe 1 "a.com" {} initService).1).2.success = true ∧
      userDomains (unsubscribe 1 "a.com" (subscribe 1 "a.com" {} initService).1).1 1 =
        userDomains initService 1 ∧
      (unsubscribe 1 "a.com" (subscribe 1 "a.com" {} initService).1).1.domainWatchers =
        initService.domainWatchers ∧
      ((∀ v, v ∉ watcherList initService "a.com") →
        (getStats (unsubscribe 1 "a.com"
          (subscribe 1 "a.com" {} initService).1).1).totalDomains + 1 =
          (getStats (subscribe 1 "a.com" {} initService).1).totalDomains) ∧
      ((∃ v, v ∈ watcherList initService "a.com") →
        (getStats (unsubscribe 1 "a.com"
          (subscribe 1 "a.com" {} initService).1).1).totalDomains =
          (getStats (subscribe 1 "a.com" {} initService).1).totalDomains)) :=
  ⟨Reachable.init, by decide, C3_round_trip Reachable.init 1 "a.com" (by decide)⟩

/-- C9: Subscribe idempotence.  A second subscribe for the same pair succeeds,
returns the same domain set (hence the same size), and the set holds no
duplicate entries. -/
theorem C9_subscribe_idempotent {s : SubscriptionService} (hr : Reachable s) (u : Nat)
    (d : String) :
    (subscribe u d {} (subscribe u d {} s).1).2.success = true ∧
    userDomains (subscribe u d {} (subscribe u d {} s).1).1 u =
      userDomains (subscribe u d {} s).1 u ∧
    (userDomains (subscribe u d {} (subscribe u d {} s).1).1 u).length =
      (userDomains (subscribe u d {} s).1 u).length ∧
    (userDomains (subscribe u d {} (subscribe u d {} s).1).1 u).Nodup := by
  have hw := wf_reachable hr
  have hw1 := wf_subscribe hw u d {}
  have heq : userDomains (subscribe u d {} (subscribe u d {} s).1).1 u =
      userDomains (subscribe u d {} s).1 u := by
    rw [subscribe_userDomains, if_pos rfl, userDomains_eq_subRecord]
    apply sAdd_of_mem
    rw [← userDomains_eq_subRecord, subscribe_userDomains, if_pos rfl]
    exact mem_sAdd_self d _
  refine ⟨rfl, heq, by rw [heq], ?_⟩
  rw [heq, userDomains_eq_subRecord]
  exact subRecord_domains_nodup hw1 u

/-- Witness for C9: user 1 and domain "a.com" on the empty state. -/
theorem C9_subscribe_idempotent_witness :
    Reachable initService ∧
    ((subscribe 1 "a.com" {} (subscribe 1 "a.com" {} initService).1).2.success = true ∧
      userDomains (subscribe 1 "a.com" {} (subscribe 1 "a.com" {} initService).1).1 1 =
        userDomains (subscribe 1 "a.com" {} initService).1 1 ∧
      (userDomains (subscribe 1 "a.com" {} (subscribe 1 "a.com" {} initService).1).1 1).length =
        (userDomains (subscribe 1 "a.com" {} initService).1 1).length ∧
      (userDomains (subscribe 1 "a.com" {} (subscribe 1 "a.com" {} initService).1).1 1).Nodup) :=
  ⟨Reachable.init, C9_subscribe_idempotent Reachable.init 1 "a.com"⟩

/-- The state reached by subscribing user 1 and then disabling periodic
reports through `updatePreferences`. -/
def c4state : SubscriptionService :=
  (updatePreferences 1 { periodicReports := some false }
    (subscribe 1 "a.com" {} initService).1).1

/-- C4 counterexample: `updatePreferences` does not touch the report timers,
so after subscribe followed by updatePreferences with periodicReports false —
a reachable history — the user still has a live timer entry while the stored
flag is false, violating the claimed invariant at a reachable state. -/
theorem C4_counterexample :
    Reachable c4state ∧
    (findVal 1 c4state.reportTimers).isSome = true ∧
    (findVal 1 c4state.subscriptions).map (fun sub => sub.preferences.periodicReports) =
      some false := by
  refine ⟨?_, by decide, by decide⟩
  show Reachable (updatePreferences 1 { periodicReports := some false }
    (subscribe 1 "a.com" {} initService).1).1
  exact Reachable.updatePreferences 1 { periodicReports := some false }
    (Reachable.subscribe 1 "a.com" {} Reachable.init)

/-- C4 (amended): along every history that never calls `updatePreferences`,
at every reachable state a userId has a live report timer entry iff it has a
subscription record with `periodicReports = true`, and the armed period equals
the one computed from the stored `reportInterval` (the cancel-then-recreate in
`startPeriodicReports` keeps the schedule current through subscribe,
setReportInterval and togglePeriodicReports).  `updatePreferences` merges
preferences without cancelling or re-creating timers, so it can break the
invariant — see the counterexample. -/
theorem C4_timer_invariant {s : SubscriptionService} (hr : ReachableNoUpd s) (u : Nat) :
    ((findVal u s.reportTimers).isSome = true ↔
      ∃ sub, findVal u s.subscriptions = some sub ∧
        sub.preferences.periodicReports = true) ∧
    (∀ ms, findVal u s.reportTimers = some ms →
      ∃ sub, findVal u s.subscriptions = some sub ∧ ms = timerMs sub.preferences) :=
  timerInv_noUpd hr u

/-- Witness for C4: the state after user 1 subscribed, along an
updatePreferences-free history. -/
theorem C4_timer_invariant_witness :
    ReachableNoUpd (subscribe 1 "a.com" {} initService).1 ∧
    (((findVal 1 (subscribe 1 "a.com" {} initService).1.reportTimers).isSome = true ↔
        ∃ sub, findVal 1 (subscribe 1 "a.com" {} initService).1.subscriptions = some sub ∧
          sub.preferences.periodicReports = true) ∧
      (∀ ms, findVal 1 (subscribe 1 "a.com" {} initService).1.reportTimers = some ms →
        ∃ sub, findVal 1 (subscribe 1 "a.com" {} initService).1.subscriptions = some sub ∧
          ms = timerMs sub.preferences)) :=
  ⟨ReachableNoUpd.subscribe 1 "a.com" {} ReachableNoUpd.init,
    C4_timer_invariant (ReachableNoUpd.subscribe 1 "a.com" {} ReachableNoUpd.init) 1⟩

/-- C8 counterexample: for the unknown user 1 and the invalid interval
"45min", `setReportInterval` reports the invalid-interval failure, not the
no-subscriptions failure the claim asserts for every argument value. -/
theorem C8_counterexample :
    (setReportInterval 1 "45min" initService).2.message ≠ "no active subscriptions" ∧
    (setReportInterval 1 "45min" initService).2.message ≠ "No active subscriptions found" ∧
    (setReportInterval 1 "45min" initService).2.message =
      "Invalid report interval. Use: 10min, 30min, 12h, 1day" := by
  decide

/-- C8 (amended): for a userId with no subscription record,
`togglePeriodicReports` always fails with "No active subscriptions found" and
leaves the state unchanged; `setReportInterval` fails with
"No active subscriptions found" exactly when the bracket lookup
`reportIntervals[interval]` is truthy — which holds for the four enumerated
values and also for names of properties inherited from `Object.prototype`
such as "constructor" — while for any other interval the validation runs
first and the invalid-interval failure is reported; in every case the state
is unchanged. -/
theorem C8_unknown_user_mutations {s : SubscriptionService} {u : Nat} (i : String) (b : Bool)
    (h : findVal u s.subscriptions = none) :
    togglePeriodicReports u b s = (s, ⟨false, "No active subscriptions found"⟩) ∧
    ((reportIntervals i).truthy = true →
      setReportInterval u i s = (s, ⟨false, "No active subscriptions found"⟩)) ∧
    ((reportIntervals i).truthy = false →
      setReportInterval u i s =
        (s, ⟨false, "Invalid report interval. Use: 10min, 30min, 12h, 1day"⟩)) ∧
    ((reportIntervals i).truthy = true ↔
      i ∈ ["10min", "30min", "12h", "1day"] ∨ i ∈ objectPrototypeProps) := by
  refine ⟨?_, ?_, ?_, ?_⟩
  · unfold togglePeriodicReports
    rw [h]
  · intro hv
    unfold setReportInterval
    rw [if_neg (by rw [hv]; simp), h]
  · intro hv
    unfold setReportInterval
    rw [if_pos hv]
  · unfold reportIntervals
    split_ifs with h1 h2 h3 h4 h5 <;> simp_all [JsLookup.truthy, objectPrototypeProps]

/-- Witness for C8: the unknown user 1 on the empty state, with the
inherited-property interval "constructor" exercising the truthy branch. -/
theorem C8_unknown_user_mutations_witness :
    findVal 1 initService.subscriptions = none ∧
    (togglePeriodicReports 1 true initService =
      (initService, ⟨false, "No active subscriptions found"⟩) ∧
    ((reportIntervals "constructor").truthy = true →
      setReportInterval 1 "constructor" initService =
        (initService, ⟨false, "No active subscriptions found"⟩)) ∧
    ((reportIntervals "constructor").truthy = false →
      setReportInterval 1 "constructor" initService =
        (initService, ⟨false, "Invalid report interval. Use: 10min, 30min, 12h, 1day"⟩)) ∧
    ((reportIntervals "constructor").truthy = true ↔
      "constructor" ∈ ["10min", "30min", "12h", "1day"] ∨
        "constructor" ∈ objectPrototypeProps)) :=
  ⟨by decide, C8_unknown_user_mutations "constructor" true (by decide)⟩

/-- C10: Monitoring start/stop idempotence.  At every reachable state:
starting while already monitoring is a full no-op (so no second global timer
is ever created and at most one global timer handle is live — the ghost count
`liveGlobalTimers` is at most one and is one exactly while monitoring);
stopping while already stopped is a no-op that leaves the flag false; after a
start `getStats().isMonitoring` is true and after a stop it is false, and the
other mutating operations preserve it (subscribe forces it true by starting
the monitor). -/
theorem C10_monitoring_idempotent {s : SubscriptionService} (hr : Reachable s) :
    (s.isMonitoring = true → startEventMonitoring s = s) ∧
    (s.isMonitoring = false → stopEventMonitoring s = s) ∧
    s.liveGlobalTimers ≤ 1 ∧
    (s.isMonitoring = true ↔ s.liveGlobalTimers = 1) ∧
    (getStats (startEventMonitoring s)).isMonitoring = true ∧
    (getStats (stopEventMonitoring s)).isMonitoring = false ∧
    (∀ u d p, (getStats (subscribe u d p s).1).isMonitoring = true) ∧
    (∀ u d, (getStats (unsubscribe u d s).1).isMonitoring = (getStats s).isMonitoring) ∧
    (∀ u p, (getStats (updatePreferences u p s).1).isMonitoring =
      (getStats s).isMonitoring) ∧
    (∀ u i, (getStats (setReportInterval u i s).1).isMonitoring =
      (getStats s).isMonitoring) ∧
    (∀ u b, (getStats (togglePeriodicReports u b s).1).isMonitoring =
      (getStats s).isMonitoring) := by
  have hw := wf_reachable hr
  refine ⟨?_, ?_, ?_, ?_, ?_, ?_, ?_, ?_, ?_, ?_, ?_⟩
  · intro h
    unfold startEventMonitoring
    rw [if_pos h]
  · intro h
    have hmi : s.monitoringInterval = none := by
      have hms := hw.monSync
      rw [h] at hms
      cases hv : s.monitoringInterval with
      | none => rfl
      | some x =>
        rw [hv] at hms
        simp at hms
    unfold stopEventMonitoring
    rw [hmi]
    dsimp only
    rw [← hmi, ← h]
  · have hc := hw.monCount
    cases hm : s.isMonitoring <;> rw [hm] at hc <;> simp [hc]
  · have hc := hw.monCount
    cases hm : s.isMonitoring <;> rw [hm] at hc <;> simp [hc]
  · unfold getStats startEventMonitoring
    dsimp only
    split
    · rename_i h
      exact h
    · rfl
  · unfold getStats stopEventMonitoring
    dsimp only
    split <;> rfl
  · intro u d p
    exact subscribe_isMonitoring u d p s
  · intro u d
    unfold getStats unsubscribe
    dsimp only
    cases h : findVal u s.subscriptions with
    | none => rfl
    | some sub =>
      dsimp only
      split <;> rfl
  · intro u p
    unfold getStats updatePreferences
    dsimp only
    cases h : findVal u s.subscriptions with
    | none => rfl
    | some sub => rfl
  · intro u i
    unfold getStats setReportInterval
    dsimp only
    split
    · rfl
    · cases h : findVal u s.subscriptions with
      | none => rfl
      | some sub =>
        dsimp only
        exact startPeriodicReports_isMonitoring u _
  · intro u b
    unfold getStats togglePeriodicReports
    dsimp only
    cases h : findVal u s.subscriptions with
    | none => rfl
    | some sub =>
      dsimp only
      cases b with
      | true =>
        simp only [if_true]
        exact startPeriodicReports_isMonitoring u _
      | false =>
        simp only [Bool.false_eq_true, if_false]
        exact stopPeriodicReports_isMonitoring u _

/-- Witness for C10: the claim instantiated at the initial state. -/
theorem C10_monitoring_idempotent_witness :
    Reachable initService ∧
    ((initService.isMonitoring = true → startEventMonitoring initService = initService) ∧
    (initService.isMonitoring = false → stopEventMonitoring initService = initService) ∧
    initService.liveGlobalTimers ≤ 1 ∧
    (initService.isMonitoring = true ↔ initService.liveGlobalTimers = 1) ∧
    (getStats (startEventMonitoring initService)).isMonitoring = true ∧
    (getStats (stopEventMonitoring initService)).isMonitoring = false ∧
    (∀ u d p, (getStats (subscribe u d p initService).1).isMonitoring = true) ∧
    (∀ u d, (getStats (unsubscribe u d initService).1).isMonitoring =
      (getStats initService).isMonitoring) ∧
    (∀ u p, (getStats (updatePreferences u p initService).1).isMonitoring =
      (getStats initService).isMonitoring) ∧
    (∀ u i, (getStats (setReportInterval u i initService).1).isMonitoring =
      (getStats initService).isMonitoring) ∧
    (∀ u b, (getStats (togglePeriodicReports u b initService).1).isMonitoring =
      (getStats initService).isMonitoring)) :=
  ⟨Reachable.init, C10_monitoring_idempotent Reachable.init⟩

end DomaBot
